import Mathlib

/-!
# Verification of the autotest load-latency sweep orchestration

Shallow embedding of the `vmuxIO/autotest` repository (files `server.py`,
`loadlatency.py`, `autotest.py`) and proofs about the claims concerning it.

Python strings are modelled by `String`/`List Char`; Python's decimal
rendering of an `int` inside an f-string is modelled by `decimal`; the
local filesystem is an association list from paths to file contents;
remote effects are modelled by explicit environments recording which
remote operations succeed, and every remote operation performed is
recorded in a trace.
-/

namespace Autotest

/-- The character Python prints for the decimal digit `n` (`n < 10`). -/
def digitChar (n : Nat) : Char := Char.ofNat (48 + n)

/-- Fuel-driven loop producing the decimal digits of `n` in front of `acc`,
most significant first.  Faithful to Python's decimal rendering of a
non-negative `int`. -/
def decimalGo : Nat → Nat → List Char → List Char
  | 0, _, acc => acc
  | fuel + 1, n, acc =>
    if n < 10 then digitChar n :: acc
    else decimalGo fuel (n / 10) (digitChar (n % 10) :: acc)

/-- Decimal rendering of a natural number, as Python's `str(n)` / `f"{n}"`. -/
def decimal (n : Nat) : List Char := decimalGo (n + 1) n []

/-- Reading a digit list back as a number (proof tool, not part of the code). -/
def parseDec (l : List Char) : Nat := l.foldl (fun a c => a * 10 + (c.toNat - 48)) 0

theorem digitChar_isDigit {m : Nat} (h : m < 10) : (digitChar m).isDigit := by
  interval_cases m <;> decide

theorem digitChar_toNat {m : Nat} (h : m < 10) : (digitChar m).toNat = 48 + m := by
  interval_cases m <;> decide

theorem decimalGo_foldl : ∀ fuel n, 0 < fuel → n < 10 ^ fuel →
    ∃ k, 0 < k ∧ n < 10 ^ k ∧ ∀ acc a,
      (decimalGo fuel n acc).foldl (fun a c => a * 10 + (c.toNat - 48)) a =
        acc.foldl (fun a c => a * 10 + (c.toNat - 48)) (a * 10 ^ k + n) := by
  intro fuel
  induction fuel with
  | zero => intro n h; omega
  | succ fuel ih =>
    intro n _ hlt
    by_cases hn : n < 10
    · refine ⟨1, by omega, by simpa using hn, ?_⟩
      intro acc a
      simp only [decimalGo, if_pos hn, List.foldl_cons]
      rw [digitChar_toNat hn]
      congr 1
      omega
    · have hfuel : 0 < fuel := by
        rcases Nat.eq_zero_or_pos fuel with h0 | h0
        · subst h0; simp at hlt; omega
        · exact h0
      have hdiv : n / 10 < 10 ^ fuel := by
        have : n < 10 * 10 ^ fuel := by
          have : 10 ^ (fuel + 1) = 10 * 10 ^ fuel := by ring
          omega
        omega
      obtain ⟨k, hk0, hkb, hrec⟩ := ih (n / 10) hfuel hdiv
      refine ⟨k + 1, by omega, ?_, ?_⟩
      · have : 10 ^ (k + 1) = 10 * 10 ^ k := by ring
        omega
      · intro acc a
        simp only [decimalGo, if_neg hn]
        rw [hrec (digitChar (n % 10) :: acc) a]
        simp only [List.foldl_cons]
        rw [digitChar_toNat (Nat.mod_lt n (by omega))]
        congr 1
        have h48 : 48 + n % 10 - 48 = n % 10 := by omega
        have hpow : 10 ^ (k + 1) = 10 ^ k * 10 := by ring
        have hsplit : (a * 10 ^ k + n / 10) * 10 + n % 10 =
            a * (10 ^ k * 10) + (10 * (n / 10) + n % 10) := by ring
        have hmod : 10 * (n / 10) + n % 10 = n := by omega
        rw [h48, hpow, hsplit, hmod]

theorem parseDec_decimal (n : Nat) : parseDec (decimal n) = n := by
  have hlt : n < 10 ^ (n + 1) :=
    lt_of_lt_of_le (Nat.lt_pow_self (by omega) n) (Nat.pow_le_pow_right (by omega) (by omega))
  obtain ⟨k, _, _, h⟩ := decimalGo_foldl (n + 1) n (by omega) hlt
  have := h [] 0
  simpa [decimal, parseDec] using this

theorem decimal_inj {m n : Nat} (h : decimal m = decimal n) : m = n := by
  have := parseDec_decimal m
  rw [h, parseDec_decimal n] at this
  omega

theorem decimalGo_mem : ∀ fuel n acc c, c ∈ decimalGo fuel n acc → c ∈ acc ∨ c.isDigit := by
  intro fuel
  induction fuel with
  | zero => intro n acc c h; exact Or.inl h
  | succ fuel ih =>
    intro n acc c h
    simp only [decimalGo] at h
    split at h
    · rcases List.mem_cons.mp h with h | h
      · subst h; exact Or.inr (digitChar_isDigit (by omega))
      · exact Or.inl h
    · rcases ih _ _ _ h with h | h
      · rcases List.mem_cons.mp h with h | h
        · subst h; exact Or.inr (digitChar_isDigit (Nat.mod_lt n (by omega)))
        · exact Or.inl h
      · exact Or.inr h

theorem decimal_isDigit {n : Nat} {c : Char} (h : c ∈ decimal n) : c.isDigit := by
  rcases decimalGo_mem _ _ _ _ h with h | h
  · simp at h
  · exact h

/-! ## Data model of `loadlatency.py` -/

/-- `Machine` enum of `loadlatency.py`. -/
inductive Machine
  | host
  | pcvm
  | microvm
deriving DecidableEq, Repr

/-- `Interface` enum of `loadlatency.py`. -/
inductive Interface
  | pnic
  | bridge
  | macvtap
deriving DecidableEq, Repr

/-- `Reflector` enum of `loadlatency.py`. -/
inductive Reflector
  | moongen
  | xdp
deriving DecidableEq, Repr

/-- The `value` of a `Machine` enum member. -/
def Machine.value : Machine → String
  | .host => "host"
  | .pcvm => "pcvm"
  | .microvm => "microvm"

/-- The `value` of an `Interface` enum member. -/
def Interface.value : Interface → String
  | .pnic => "pnic"
  | .bridge => "bridge"
  | .macvtap => "macvtap"

/-- The `value` of a `Reflector` enum member. -/
def Reflector.value : Reflector → String
  | .moongen => "moongen"
  | .xdp => "xdp"

/-- Python's `'on' if b else 'off'`. -/
def onOff (b : Bool) : String := if b then "on" else "off"

/-- Python's decimal rendering of a non-negative int, as a `String`. -/
def natStr (n : Nat) : String := ⟨decimal n⟩

/-- Python's `str.startswith`. -/
def startsWithS (s p : String) : Bool := p.data.isPrefixOf s.data

/-- Python's `str.endswith`. -/
def endsWithS (s p : String) : Bool := p.data.reverse.isPrefixOf s.data.reverse

/-- `os.path.join` (posix) on two components, as used throughout the code. -/
def path_join (a b : String) : String :=
  if startsWithS b "/" then b
  else if a = "" then b
  else if endsWithS a "/" then a ++ b
  else a ++ "/" ++ b

/-- The `LoadLatencyTest` dataclass of `loadlatency.py`.  Python ints are
modelled as `Nat` (all values used for rate/runtime/repetitions are
non-negative). -/
structure LoadLatencyTest where
  machine : Machine
  interface : Interface
  mac : String
  qemu : String
  vhost : Bool
  ioregionfd : Bool
  reflector : Reflector
  rate : Nat
  runtime : Nat
  repetitions : Nat
  outputdir : String
deriving DecidableEq, Repr

/-- `LoadLatencyTest.test_infix` of `loadlatency.py` (lines 65-79): the
machine/interface values, for non-host machines the qemu name and the
vhost/ioregionfd flags, then reflector, rate in Mbps and runtime. -/
def LoadLatencyTest.testInfix (t : LoadLatencyTest) : String :=
  if t.machine = Machine.host then
    t.machine.value ++ "_" ++ t.interface.value ++
      "_" ++ t.reflector.value ++ "_" ++ natStr (t.rate * 1000) ++ "Mbps" ++
      "_" ++ natStr t.runtime ++ "s"
  else
    t.machine.value ++ "_" ++ t.interface.value ++
      "_" ++ t.qemu ++ "_vhost" ++ onOff t.vhost ++
      "_ioregionfd" ++ onOff t.ioregionfd ++
      "_" ++ t.reflector.value ++ "_" ++ natStr (t.rate * 1000) ++ "Mbps" ++
      "_" ++ natStr t.runtime ++ "s"

/-- `LoadLatencyTest.output_filepath` of `loadlatency.py`. -/
def LoadLatencyTest.output_filepath (t : LoadLatencyTest) (repetition : Nat) : String :=
  path_join t.outputdir ("output_" ++ t.testInfix ++ "_" ++ natStr repetition ++ ".log")

/-- `LoadLatencyTest.histogram_filepath` of `loadlatency.py`. -/
def LoadLatencyTest.histogram_filepath (t : LoadLatencyTest) (repetition : Nat) : String :=
  path_join t.outputdir ("histogram_" ++ t.testInfix ++ "_" ++ natStr repetition ++ ".csv")

/-! ## Local filesystem model

`loadlatency.py` and `autotest.py` touch the local filesystem through
`os.path.isfile`, reads and writes.  The filesystem is an association
list mapping a path to the file's content; an update shadows older
entries. -/

/-- The local filesystem: path to content, later entries shadow earlier ones. -/
abbrev FS := List (String × String)

/-- Look up the content of a path. -/
def fsGet : FS → String → Option String
  | [], _ => none
  | (p, c) :: fs, q => if p = q then some c else fsGet fs q

/-- Write a file (create or overwrite). -/
def fsSet (fs : FS) (p c : String) : FS := (p, c) :: fs

/-- `os.path.isfile`. -/
def isfile (fs : FS) (p : String) : Bool := (fsGet fs p).isSome

/-- `LoadLatencyTest.test_done` of `loadlatency.py` (lines 93-97): both the
output log and histogram for the given repetition exist. -/
def LoadLatencyTest.testDone (t : LoadLatencyTest) (fs : FS) (repetition : Nat) : Bool :=
  isfile fs (t.output_filepath repetition) && isfile fs (t.histogram_filepath repetition)

/-! ## Canonical character-list views of the artifact names

Used to analyse the naming function.  `infixData t` is `t.testInfix.data`
written as one explicit list expression. -/

/-- Character list of `Machine.value`. -/
def machineChars : Machine → List Char
  | .host => ['h', 'o', 's', 't']
  | .pcvm => ['p', 'c', 'v', 'm']
  | .microvm => ['m', 'i', 'c', 'r', 'o', 'v', 'm']

/-- Character list of `Interface.value`. -/
def ifaceChars : Interface → List Char
  | .pnic => ['p', 'n', 'i', 'c']
  | .bridge => ['b', 'r', 'i', 'd', 'g', 'e']
  | .macvtap => ['m', 'a', 'c', 'v', 't', 'a', 'p']

/-- Character list of `Reflector.value`. -/
def reflChars : Reflector → List Char
  | .moongen => ['m', 'o', 'o', 'n', 'g', 'e', 'n']
  | .xdp => ['x', 'd', 'p']

/-- Character list of `onOff`. -/
def onOffChars (b : Bool) : List Char := if b then ['o', 'n'] else ['o', 'f', 'f']

/-- Character list of the `{rate*1000}Mbps_{runtime}s` part of the infix. -/
def rateTimeChars (m t : Nat) : List Char :=
  decimal m ++ ('M' :: 'b' :: 'p' :: 's' :: '_' :: (decimal t ++ ['s']))

/-- Character list of what follows `_vhost` in a non-host infix, the leading
`_v` of `_vhost` excluded. -/
def guestRest (t : LoadLatencyTest) : List Char :=
  'h' :: 'o' :: 's' :: 't' ::
    (onOffChars t.vhost ++
      ('_' :: 'i' :: 'o' :: 'r' :: 'e' :: 'g' :: 'i' :: 'o' :: 'n' :: 'f' :: 'd' ::
        (onOffChars t.ioregionfd ++
          ('_' :: (reflChars t.reflector ++
            ('_' :: rateTimeChars (t.rate * 1000) t.runtime))))))

/-- `t.testInfix.data` as one explicit character-list expression. -/
def infixData (t : LoadLatencyTest) : List Char :=
  machineChars t.machine ++
    ('_' :: (ifaceChars t.interface ++
      ('_' ::
        (if t.machine = Machine.host then
          reflChars t.reflector ++ ('_' :: rateTimeChars (t.rate * 1000) t.runtime)
        else
          t.qemu.data ++ ('_' :: 'v' :: guestRest t)))))

theorem data_natStr (n : Nat) : (natStr n).data = decimal n := rfl

theorem data_machineValue (m : Machine) : (Machine.value m).data = machineChars m := by
  cases m <;> rfl

theorem data_ifaceValue (i : Interface) : (Interface.value i).data = ifaceChars i := by
  cases i <;> rfl

theorem data_reflValue (r : Reflector) : (Reflector.value r).data = reflChars r := by
  cases r <;> rfl

theorem data_onOff (b : Bool) : (onOff b).data = onOffChars b := by
  cases b <;> rfl

theorem testInfix_data (t : LoadLatencyTest) : (LoadLatencyTest.testInfix t).data = infixData t := by
  by_cases hm : t.machine = Machine.host
  · simp only [LoadLatencyTest.testInfix, infixData, hm, if_pos, String.data_append,
      data_machineValue, data_ifaceValue, data_reflValue, data_onOff, data_natStr,
      rateTimeChars, guestRest, List.append_assoc]
    rfl
  · simp only [LoadLatencyTest.testInfix, infixData, if_neg hm, String.data_append,
      data_machineValue, data_ifaceValue, data_reflValue, data_onOff, data_natStr,
      rateTimeChars, guestRest, List.append_assoc]
    simp [List.append_assoc]

/-! ## Parsing the artifact names back

A digit run bounded on the right by a non-digit is uniquely delimited,
and the `_vhost` marker occurs exactly once in the infix tail, so the
name decomposes uniquely. -/

theorem digitsSplit : ∀ (d₁ d₂ x₁ x₂ : List Char),
    (∀ c ∈ d₁, c.isDigit) → (∀ c ∈ d₂, c.isDigit) →
    (∀ c l, x₁ = c :: l → c.isDigit = false) → (∀ c l, x₂ = c :: l → c.isDigit = false) →
    d₁ ++ x₁ = d₂ ++ x₂ → d₁ = d₂ ∧ x₁ = x₂ := by
  intro d₁
  induction d₁ with
  | nil =>
    intro d₂ x₁ x₂ _ h2 hx1 _ h
    cases d₂ with
    | nil => exact ⟨rfl, h⟩
    | cons b d₂ =>
      simp only [List.nil_append, List.cons_append] at h
      have hb : b.isDigit := h2 b (by simp)
      have hnb := hx1 b (d₂ ++ x₂) h
      rw [hnb] at hb
      cases hb
  | cons a d₁ ih =>
    intro d₂ x₁ x₂ h1 h2 hx1 hx2 h
    cases d₂ with
    | nil =>
      simp only [List.cons_append, List.nil_append] at h
      have ha : a.isDigit := h1 a (by simp)
      have hna := hx2 a (d₁ ++ x₁) h.symm
      rw [hna] at ha
      cases ha
    | cons b d₂ =>
      simp only [List.cons_append, List.cons.injEq] at h
      obtain ⟨hab, h⟩ := h
      obtain ⟨hd, hx⟩ := ih d₂ x₁ x₂ (fun c hc => h1 c (by simp [hc]))
        (fun c hc => h2 c (by simp [hc])) hx1 hx2 h
      exact ⟨by rw [hab, hd], hx⟩

theorem decimal_rev_isDigit {n : Nat} {c : Char} (h : c ∈ (decimal n).reverse) : c.isDigit :=
  decimal_isDigit (List.mem_reverse.mp h)

/-- A trailing decimal run bounded by an underscore parses uniquely. -/
theorem tailName_split (suf : List Char) {i₁ i₂ : List Char} {r₁ r₂ : Nat}
    (h : i₁ ++ ('_' :: (decimal r₁ ++ suf)) = i₂ ++ ('_' :: (decimal r₂ ++ suf))) :
    i₁ = i₂ ∧ r₁ = r₂ := by
  have hrev := congrArg List.reverse h
  simp only [List.reverse_append, List.reverse_cons, List.append_assoc] at hrev
  have hc : (decimal r₁).reverse ++ ('_' :: i₁.reverse) =
      (decimal r₂).reverse ++ ('_' :: i₂.reverse) := by
    have h2 : suf.reverse ++ ((decimal r₁).reverse ++ ('_' :: i₁.reverse)) =
        suf.reverse ++ ((decimal r₂).reverse ++ ('_' :: i₂.reverse)) := by
      simpa [List.append_assoc] using hrev
    exact List.append_cancel_left h2
  obtain ⟨hd, hx⟩ := digitsSplit _ _ _ _ (fun c hc => decimal_rev_isDigit hc)
    (fun c hc => decimal_rev_isDigit hc)
    (fun c l hcl => by cases hcl; rfl) (fun c l hcl => by cases hcl; rfl) hc
  have hi : i₁ = i₂ := by
    have : i₁.reverse = i₂.reverse := by injection hx
    simpa using congrArg List.reverse this
  have hr : r₁ = r₂ := decimal_inj (by
    have : (decimal r₁).reverse.reverse = (decimal r₂).reverse.reverse := congrArg List.reverse hd
    simpa using this)
  exact ⟨hi, hr⟩

theorem rateTime_inj {m₁ t₁ m₂ t₂ : Nat}
    (h : rateTimeChars m₁ t₁ = rateTimeChars m₂ t₂) : m₁ = m₂ ∧ t₁ = t₂ := by
  unfold rateTimeChars at h
  obtain ⟨hd, hx⟩ := digitsSplit _ _ _ _ (fun c hc => decimal_isDigit hc)
    (fun c hc => decimal_isDigit hc)
    (fun c l hcl => by cases hcl; rfl) (fun c l hcl => by cases hcl; rfl) h
  have hm : m₁ = m₂ := decimal_inj hd
  simp only [List.cons.injEq, true_and] at hx
  obtain ⟨hd2, -⟩ := digitsSplit _ _ _ _ (fun c hc => decimal_isDigit hc)
    (fun c hc => decimal_isDigit hc)
    (fun c l hcl => by cases hcl; rfl) (fun c l hcl => by cases hcl; rfl) hx
  exact ⟨hm, decimal_inj hd2⟩

theorem machineSplit {m₁ m₂ : Machine} {x₁ x₂ : List Char}
    (h : machineChars m₁ ++ x₁ = machineChars m₂ ++ x₂) : m₁ = m₂ ∧ x₁ = x₂ := by
  cases m₁ <;> cases m₂ <;> simp_all [machineChars]

theorem ifaceSplit {i₁ i₂ : Interface} {x₁ x₂ : List Char}
    (h : ifaceChars i₁ ++ x₁ = ifaceChars i₂ ++ x₂) : i₁ = i₂ ∧ x₁ = x₂ := by
  cases i₁ <;> cases i₂ <;> simp_all [ifaceChars]

theorem reflSplit {r₁ r₂ : Reflector} {x₁ x₂ : List Char}
    (h : reflChars r₁ ++ x₁ = reflChars r₂ ++ x₂) : r₁ = r₂ ∧ x₁ = x₂ := by
  cases r₁ <;> cases r₂ <;> simp_all [reflChars]

theorem onOffSplit {b₁ b₂ : Bool} {x₁ x₂ : List Char}
    (h : onOffChars b₁ ++ x₁ = onOffChars b₂ ++ x₂) : b₁ = b₂ ∧ x₁ = x₂ := by
  cases b₁ <;> cases b₂ <;> simp_all [onOffChars]

theorem v_not_mem_onOff (b : Bool) : 'v' ∉ onOffChars b := by cases b <;> decide

theorem v_not_mem_refl (r : Reflector) : 'v' ∉ reflChars r := by cases r <;> decide

theorem v_not_mem_decimal {n : Nat} (h : 'v' ∈ decimal n) : False :=
  absurd (decimal_isDigit h) (by decide)

theorem v_not_mem_rateTime (m t : Nat) : 'v' ∉ rateTimeChars m t := by
  intro h
  simp only [rateTimeChars, List.mem_append, List.mem_cons, List.mem_singleton] at h
  rcases h with h | h | h | h | h | h | h
  · exact v_not_mem_decimal h
  all_goals first
    | exact absurd h (by decide)
    | rcases h with h | h
      <;> first | exact v_not_mem_decimal h | exact absurd h (by decide)

theorem v_not_mem_guestRest (t : LoadLatencyTest) : 'v' ∉ guestRest t := by
  intro h
  simp only [guestRest, List.mem_cons, List.mem_append] at h
  repeat
    first
      | exact absurd h (by decide)
      | exact absurd h (v_not_mem_onOff _)
      | exact absurd h (v_not_mem_refl _)
      | exact absurd h (v_not_mem_rateTime _ _)
      | rcases h with h | h

/-- If the remainder after the qemu field starts with the unique `_v` of
`_vhost`, the qemu field is uniquely delimited. -/
theorem qemuSplit {q₁ q₂ r₁ r₂ : List Char} (h₁ : 'v' ∉ r₁) (h₂ : 'v' ∉ r₂)
    (h : q₁ ++ ('_' :: 'v' :: r₁) = q₂ ++ ('_' :: 'v' :: r₂)) : q₁ = q₂ ∧ r₁ = r₂ := by
  have key : ∀ (e ra rb : List Char), 'v' ∉ ra → e ++ ('_' :: 'v' :: rb) = '_' :: 'v' :: ra →
      e = [] := by
    intro e ra rb hra he
    cases e with
    | nil => rfl
    | cons c e' =>
      cases e' with
      | nil => simp_all
      | cons c' e'' =>
        simp only [List.cons_append, List.cons.injEq] at he
        obtain ⟨hc, hc', htail⟩ := he
        exact absurd (htail ▸ (by simp : 'v' ∈ e'' ++ ('_' :: 'v' :: rb))) hra
  rcases List.append_eq_append_iff.mp h with ⟨e, he₁, he₂⟩ | ⟨e, he₁, he₂⟩
  · have he0 : e = [] := key e r₁ r₂ h₁ he₂.symm
    subst he0
    simp only [List.append_nil] at he₁
    subst he₁
    exact ⟨rfl, by simpa using List.append_cancel_left h⟩
  · have he0 : e = [] := key e r₂ r₁ h₂ he₂.symm
    subst he0
    simp only [List.append_nil] at he₁
    subst he₁
    exact ⟨rfl, by simpa using List.append_cancel_left h⟩

theorem guestRest_inj {t₁ t₂ : LoadLatencyTest} (h : guestRest t₁ = guestRest t₂) :
    t₁.vhost = t₂.vhost ∧ t₁.ioregionfd = t₂.ioregionfd ∧ t₁.reflector = t₂.reflector ∧
    t₁.rate * 1000 = t₂.rate * 1000 ∧ t₁.runtime = t₂.runtime := by
  unfold guestRest at h
  simp only [List.cons.injEq, true_and] at h
  obtain ⟨hv, h⟩ := onOffSplit h
  simp only [List.cons.injEq, true_and] at h
  obtain ⟨hio, h⟩ := onOffSplit h
  simp only [List.cons.injEq, true_and] at h
  obtain ⟨hr, h⟩ := reflSplit h
  simp only [List.cons.injEq, true_and] at h
  obtain ⟨hm, ht⟩ := rateTime_inj h
  exact ⟨hv, hio, hr, hm, ht⟩

theorem infixData_inj {t₁ t₂ : LoadLatencyTest} (h : infixData t₁ = infixData t₂) :
    t₁.machine = t₂.machine ∧ t₁.interface = t₂.interface ∧ t₁.reflector = t₂.reflector ∧
    t₁.rate = t₂.rate ∧ t₁.runtime = t₂.runtime ∧
    (t₁.machine ≠ Machine.host →
      t₁.qemu = t₂.qemu ∧ t₁.vhost = t₂.vhost ∧ t₁.ioregionfd = t₂.ioregionfd) := by
  unfold infixData at h
  obtain ⟨hm, h⟩ := machineSplit h
  simp only [List.cons.injEq, true_and] at h
  obtain ⟨hi, h⟩ := ifaceSplit h
  simp only [List.cons.injEq, true_and] at h
  by_cases hmach : t₁.machine = Machine.host
  · have hmach₂ : t₂.machine = Machine.host := hm ▸ hmach
    rw [if_pos hmach, if_pos hmach₂] at h
    obtain ⟨hr, h⟩ := reflSplit h
    simp only [List.cons.injEq, true_and] at h
    obtain ⟨hrate, hrt⟩ := rateTime_inj h
    exact ⟨hm, hi, hr, by omega, hrt, fun hc => absurd hmach hc⟩
  · have hmach₂ : ¬ t₂.machine = Machine.host := fun hc => hmach (hm ▸ hc)
    rw [if_neg hmach, if_neg hmach₂] at h
    obtain ⟨hq, h⟩ := qemuSplit (v_not_mem_guestRest t₁) (v_not_mem_guestRest t₂) h
    obtain ⟨hv, hio, hr, hrate, hrt⟩ := guestRest_inj h
    exact ⟨hm, hi, hr, by omega, hrt, fun _ => ⟨String.ext hq, hv, hio⟩⟩

theorem data_underscoreLit : ("_" : String).data = ['_'] := rfl

theorem data_outputLit : ("output_" : String).data = ['o', 'u', 't', 'p', 'u', 't', '_'] := rfl

theorem data_histogramLit :
    ("histogram_" : String).data = ['h', 'i', 's', 't', 'o', 'g', 'r', 'a', 'm', '_'] := rfl

theorem data_logLit : (".log" : String).data = ['.', 'l', 'o', 'g'] := rfl

theorem data_csvLit : (".csv" : String).data = ['.', 'c', 's', 'v'] := rfl

theorem data_slashLit : ("/" : String).data = ['/'] := rfl

theorem outName_data (t : LoadLatencyTest) (r : Nat) :
    ("output_" ++ LoadLatencyTest.testInfix t ++ "_" ++ natStr r ++ ".log").data =
      'o' :: 'u' :: 't' :: 'p' :: 'u' :: 't' :: '_' ::
        (infixData t ++ ('_' :: (decimal r ++ ['.', 'l', 'o', 'g']))) := by
  simp [String.data_append, data_outputLit, data_underscoreLit, data_logLit,
    testInfix_data, data_natStr, List.append_assoc]

theorem histName_data (t : LoadLatencyTest) (r : Nat) :
    ("histogram_" ++ LoadLatencyTest.testInfix t ++ "_" ++ natStr r ++ ".csv").data =
      'h' :: 'i' :: 's' :: 't' :: 'o' :: 'g' :: 'r' :: 'a' :: 'm' :: '_' ::
        (infixData t ++ ('_' :: (decimal r ++ ['.', 'c', 's', 'v']))) := by
  simp [String.data_append, data_histogramLit, data_underscoreLit, data_csvLit,
    testInfix_data, data_natStr, List.append_assoc]

theorem startsWithS_slash_false {s : String} {c : Char} {l : List Char}
    (hd : s.data = c :: l) (hne : c ≠ '/') : startsWithS s "/" = false := by
  simp only [startsWithS, data_slashLit, hd, List.isPrefixOf, List.isPrefixOf_nil_left,
    Bool.and_true]
  simpa using fun hc => hne hc.symm

theorem no_slash_outName (t : LoadLatencyTest) (r : Nat) :
    startsWithS ("output_" ++ LoadLatencyTest.testInfix t ++ "_" ++ natStr r ++ ".log") "/" =
      false :=
  startsWithS_slash_false (outName_data t r) (by decide)

theorem no_slash_histName (t : LoadLatencyTest) (r : Nat) :
    startsWithS ("histogram_" ++ LoadLatencyTest.testInfix t ++ "_" ++ natStr r ++ ".csv") "/" =
      false :=
  startsWithS_slash_false (histName_data t r) (by decide)

theorem path_join_inj {od f₁ f₂ : String} (h₁ : startsWithS f₁ "/" = false)
    (h₂ : startsWithS f₂ "/" = false) (h : path_join od f₁ = path_join od f₂) : f₁ = f₂ := by
  unfold path_join at h
  simp only [h₁, h₂, Bool.false_eq_true, if_false] at h
  split_ifs at h
  · exact h
  · have hd := congrArg String.data h
    simp only [String.data_append] at hd
    exact String.ext (List.append_cancel_left hd)
  · have hd := congrArg String.data h
    simp only [String.data_append, data_slashLit, List.append_assoc, List.singleton_append] at hd
    have := List.append_cancel_left hd
    simp only [List.cons.injEq, true_and] at this
    exact String.ext this

theorem output_filepath_inj {t₁ t₂ : LoadLatencyTest} {r₁ r₂ : Nat}
    (hod : t₁.outputdir = t₂.outputdir)
    (h : LoadLatencyTest.output_filepath t₁ r₁ = LoadLatencyTest.output_filepath t₂ r₂) :
    infixData t₁ = infixData t₂ ∧ r₁ = r₂ := by
  unfold LoadLatencyTest.output_filepath at h
  rw [hod] at h
  have hf := path_join_inj (no_slash_outName t₁ r₁) (no_slash_outName t₂ r₂) h
  have hd := congrArg String.data hf
  rw [outName_data, outName_data] at hd
  simp only [List.cons.injEq, true_and] at hd
  exact tailName_split _ hd

theorem histogram_filepath_inj {t₁ t₂ : LoadLatencyTest} {r₁ r₂ : Nat}
    (hod : t₁.outputdir = t₂.outputdir)
    (h : LoadLatencyTest.histogram_filepath t₁ r₁ = LoadLatencyTest.histogram_filepath t₂ r₂) :
    infixData t₁ = infixData t₂ ∧ r₁ = r₂ := by
  unfold LoadLatencyTest.histogram_filepath at h
  rw [hod] at h
  have hf := path_join_inj (no_slash_histName t₁ r₁) (no_slash_histName t₂ r₂) h
  have hd := congrArg String.data hf
  rw [histName_data, histName_data] at hd
  simp only [List.cons.injEq, true_and] at hd
  exact tailName_split _ hd

/-! ## Claim C5: artifact naming -/

/-- Concrete host test used for the C5 counterexample, with vhost on. -/
def hostTestA : LoadLatencyTest :=
  ⟨Machine.host, Interface.pnic, "64:9d:99:b1:0b:59", "qemu-build-a", true, true,
    Reflector.moongen, 1, 30, 3, "out"⟩

/-- Same tuple as `hostTestA` except qemu build, vhost and ioregionfd. -/
def hostTestB : LoadLatencyTest :=
  ⟨Machine.host, Interface.pnic, "64:9d:99:b1:0b:59", "qemu-build-b", false, false,
    Reflector.moongen, 1, 30, 3, "out"⟩

/-- C5, counterexample.  The claim says the artifact-naming function is
injective in the full tuple {machine, interface, qemu, vhost, ioregionfd,
reflector, rate, runtime, repetition}.  For machine = HOST `test_infix`
ignores qemu, vhost and ioregionfd (`loadlatency.py` lines 66-71), so the
two distinct tuples `hostTestA` and `hostTestB` (differing in qemu build,
vhost and ioregionfd) are mapped to the same output and histogram paths. -/
theorem claim_C5_counterexample :
    hostTestA ≠ hostTestB ∧
    hostTestA.vhost ≠ hostTestB.vhost ∧
    LoadLatencyTest.output_filepath hostTestA 0 = LoadLatencyTest.output_filepath hostTestB 0 ∧
    LoadLatencyTest.histogram_filepath hostTestA 0 =
      LoadLatencyTest.histogram_filepath hostTestB 0 := by
  refine ⟨by decide, by decide, ?_, ?_⟩ <;> decide

/-- C5, amended.  The artifact-naming function (test_infix together with
output_filepath and histogram_filepath) is a pure function of the tuple,
and it is injective in {machine, interface, reflector, rate, runtime,
repetition} always, and additionally in {qemu, vhost, ioregionfd} whenever
the machine kind is not HOST; for HOST tuples those three fields are
ignored by the name (this is exactly what the counterexample forces). -/
theorem claim_C5 (t₁ t₂ : LoadLatencyTest) (r₁ r₂ : Nat)
    (hod : t₁.outputdir = t₂.outputdir)
    (h : LoadLatencyTest.output_filepath t₁ r₁ = LoadLatencyTest.output_filepath t₂ r₂ ∨
      LoadLatencyTest.histogram_filepath t₁ r₁ = LoadLatencyTest.histogram_filepath t₂ r₂) :
    t₁.machine = t₂.machine ∧ t₁.interface = t₂.interface ∧ t₁.reflector = t₂.reflector ∧
    t₁.rate = t₂.rate ∧ t₁.runtime = t₂.runtime ∧ r₁ = r₂ ∧
    (t₁.machine ≠ Machine.host →
      t₁.qemu = t₂.qemu ∧ t₁.vhost = t₂.vhost ∧ t₁.ioregionfd = t₂.ioregionfd) := by
  have hir : infixData t₁ = infixData t₂ ∧ r₁ = r₂ := by
    rcases h with h | h
    · exact output_filepath_inj hod h
    · exact histogram_filepath_inj hod h
  obtain ⟨hinf, hr⟩ := hir
  obtain ⟨hm, hi, hrf, hra, hrt, hguest⟩ := infixData_inj hinf
  exact ⟨hm, hi, hrf, hra, hrt, hr, hguest⟩

/-- Concrete guest test used for the C5 witness. -/
def guestTestA : LoadLatencyTest :=
  ⟨Machine.pcvm, Interface.bridge, "52:54:00:fa:00:60", "qemu-build", true, false,
    Reflector.xdp, 10, 60, 2, "out"⟩

/-- Same tuple as `guestTestA` except the MAC, which the name ignores. -/
def guestTestB : LoadLatencyTest :=
  ⟨Machine.pcvm, Interface.bridge, "52:54:00:fa:00:61", "qemu-build", true, false,
    Reflector.xdp, 10, 60, 2, "out"⟩

/-- Witness for `claim_C5` at a concrete input. -/
theorem claim_C5_witness :
    guestTestA.outputdir = guestTestB.outputdir ∧
    (LoadLatencyTest.output_filepath guestTestA 1 = LoadLatencyTest.output_filepath guestTestB 1 ∨
      LoadLatencyTest.histogram_filepath guestTestA 1 =
        LoadLatencyTest.histogram_filepath guestTestB 1) ∧
    guestTestA.qemu = guestTestB.qemu :=
  ⟨by decide, Or.inl (by decide),
    ((claim_C5 guestTestA guestTestB 1 1 (by decide) (Or.inl (by decide))).2.2.2.2.2.2
      (by decide)).1⟩

/-! ## `Server.wait_for_success` (`server.py` lines 452-480)

The loop keeps attempting `exec(command)` while the elapsed time since the
start is strictly below `timeout`; a successful attempt returns, a failed
one sleeps one second and retries; when the loop exits a `TimeoutError`
is raised.  The remote environment is abstracted by `ok k` (does attempt
number `k` succeed) and `extra k` (how long failed attempt `k` takes on
top of the one-second sleep).  The result is the list of elapsed times at
which attempts were started, and whether the call returned normally
(`true`) or raised `TimeoutError` (`false`). -/

def wfsGo (timeout : Int) (ok : Nat → Bool) (extra : Nat → Nat) (k elapsed : Nat) :
    List Nat × Bool :=
  if h : (elapsed : Int) < timeout then
    if ok k then ([elapsed], true)
    else
      (elapsed :: (wfsGo timeout ok extra (k + 1) (elapsed + 1 + extra k)).1,
        (wfsGo timeout ok extra (k + 1) (elapsed + 1 + extra k)).2)
  else ([], false)
termination_by timeout.toNat - elapsed
decreasing_by all_goals omega

/-- `Server.wait_for_success(command, timeout)`; see `wfsGo`. -/
def wait_for_success (timeout : Int) (ok : Nat → Bool) (extra : Nat → Nat) : List Nat × Bool :=
  wfsGo timeout ok extra 0 0

theorem wfsGo_spec (timeout : Int) (ok : Nat → Bool) (extra : Nat → Nat) :
    ∀ m k elapsed, timeout.toNat - elapsed = m →
      (∀ e ∈ (wfsGo timeout ok extra k elapsed).1, elapsed ≤ e ∧ (e : Int) < timeout) ∧
      ((wfsGo timeout ok extra k elapsed).2 = false →
        ∀ j < (wfsGo timeout ok extra k elapsed).1.length, ok (k + j) = false) ∧
      ((wfsGo timeout ok extra k elapsed).2 = true →
        ∃ n, (wfsGo timeout ok extra k elapsed).1.length = n + 1 ∧ ok (k + n) = true ∧
          ∀ j < n, ok (k + j) = false) := by
  intro m
  induction m using Nat.strong_induction_on with
  | _ m ih =>
    intro k elapsed hm
    rw [wfsGo]
    by_cases h : (elapsed : Int) < timeout
    · rw [dif_pos h]
      by_cases hok : ok k
      · rw [if_pos hok]
        refine ⟨?_, ?_, ?_⟩
        · intro e he
          simp only [List.mem_singleton] at he
          subst he
          exact ⟨le_refl _, h⟩
        · intro hfalse
          cases hfalse
        · intro _
          exact ⟨0, by simp, by simpa using hok, by omega⟩
      · rw [if_neg hok]
        have hlt : timeout.toNat - (elapsed + 1 + extra k) < m := by omega
        obtain ⟨ht, hf, htr⟩ := ih _ hlt (k + 1) (elapsed + 1 + extra k) rfl
        refine ⟨?_, ?_, ?_⟩
        · intro e he
          simp only [List.mem_cons] at he
          rcases he with he | he
          · subst he; exact ⟨le_refl _, h⟩
          · have := ht e he
            exact ⟨by omega, this.2⟩
        · intro h2 j hj
          cases j with
          | zero => simpa using hok
          | succ j' =>
            have := hf h2 j' (by simpa using hj)
            rw [show k + (j' + 1) = k + 1 + j' by omega]
            exact this
        · intro h2
          obtain ⟨n, hlen, hokn, hprev⟩ := htr h2
          refine ⟨n + 1, by simp [hlen], ?_, ?_⟩
          · rw [show k + (n + 1) = k + 1 + n by omega]
            exact hokn
          · intro j hj
            cases j with
            | zero => simpa using hok
            | succ j' =>
              rw [show k + (j' + 1) = k + 1 + j' by omega]
              exact hprev j' (by omega)
    · rw [dif_neg h]
      refine ⟨by simp, ?_, by intro h2; cases h2⟩
      intro _ j hj
      simp at hj

/-- C10: `wait_for_success(command, timeout)` with `timeout ≤ 0` raises
`TimeoutError` without a single attempt; in general every attempt is
started while the elapsed time is strictly below the timeout, the call
returns normally exactly when some attempt succeeds (all earlier attempts
having failed), and otherwise raises `TimeoutError`. -/
theorem claim_C10 (timeout : Int) (ok : Nat → Bool) (extra : Nat → Nat) :
    (timeout ≤ 0 → wait_for_success timeout ok extra = ([], false)) ∧
    (∀ e ∈ (wait_for_success timeout ok extra).1, (e : Int) < timeout) ∧
    ((wait_for_success timeout ok extra).2 = false →
      ∀ j < (wait_for_success timeout ok extra).1.length, ok j = false) ∧
    ((wait_for_success timeout ok extra).2 = true →
      ∃ n, (wait_for_success timeout ok extra).1.length = n + 1 ∧ ok n = true ∧
        ∀ j < n, ok j = false) := by
  obtain ⟨ht, hf, htr⟩ := wfsGo_spec timeout ok extra (timeout.toNat - 0) 0 0 rfl
  refine ⟨?_, ?_, ?_, ?_⟩
  · intro h0
    rw [wait_for_success, wfsGo, dif_neg (by omega)]
  · intro e he
    exact (ht e he).2
  · intro h2 j hj
    simpa using hf h2 j hj
  · intro h2
    obtain ⟨n, hlen, hokn, hprev⟩ := htr h2
    exact ⟨n, hlen, by simpa using hokn, fun j hj => by simpa using hprev j hj⟩

/-- Witness for `claim_C10` at a concrete input. -/
theorem claim_C10_witness :
    ((-1 : Int) ≤ 0 ∧ wait_for_success (-1) (fun _ => true) (fun _ => 0) = ([], false)) :=
  ⟨by decide, (claim_C10 (-1) (fun _ => true) (fun _ => 0)).1 (by decide)⟩

/-! ## `Server.detect_test_iface_id` (`server.py` lines 678-703)

The method lists the devices currently bound to the polling driver,
enumerates the lines of the output, and stores in `_test_iface_id` the
ordinal of the first line starting with the test interface's bus address;
when no line matches it logs an error and performs no assignment, so the
cached field keeps its previous value.  The exec output is modelled as
the list of its lines, the cached field as an `Option Nat`. -/

def detectIdLoop (addr : String) : List String → Nat → Option Nat
  | [], _ => none
  | line :: rest, num =>
    if startsWithS line addr then some num else detectIdLoop addr rest (num + 1)

/-- `Server.detect_test_iface_id`: the new value of `_test_iface_id`. -/
def detect_test_iface_id (addr : String) (lines : List String) (cur : Option Nat) : Option Nat :=
  match detectIdLoop addr lines 0 with
  | some i => some i
  | none => cur

theorem detectIdLoop_found (addr : String) :
    ∀ (lines : List String) (num i : Nat) (hi : i < lines.length),
      startsWithS (lines.get ⟨i, hi⟩) addr = true →
      (∀ j (hj : j < i), startsWithS (lines.get ⟨j, lt_trans hj hi⟩) addr = false) →
      detectIdLoop addr lines num = some (num + i) := by
  intro lines
  induction lines with
  | nil => intro num i hi; simp at hi
  | cons l rest ih =>
    intro num i hi hmatch hfirst
    cases i with
    | zero =>
      simp only [List.get] at hmatch
      simp [detectIdLoop, hmatch]
    | succ i' =>
      have h0 : startsWithS l addr = false := by
        have := hfirst 0 (Nat.succ_pos i')
        simpa using this
      have hi' : i' < rest.length := by
        simpa [Nat.succ_lt_succ_iff] using hi
      have hmatch' : startsWithS (rest.get ⟨i', hi'⟩) addr = true := by
        simpa using hmatch
      have hfirst' : ∀ j (hj : j < i'),
          startsWithS (rest.get ⟨j, lt_trans hj hi'⟩) addr = false := by
        intro j hj
        have := hfirst (j + 1) (Nat.succ_lt_succ hj)
        simpa using this
      rw [detectIdLoop, h0]
      simp only [Bool.false_eq_true, if_false]
      rw [ih (num + 1) i' hi' hmatch' hfirst']
      congr 1
      omega

theorem detectIdLoop_none (addr : String) :
    ∀ (lines : List String) (num : Nat),
      (∀ i (hi : i < lines.length), startsWithS (lines.get ⟨i, hi⟩) addr = false) →
      detectIdLoop addr lines num = none := by
  intro lines
  induction lines with
  | nil => intro num _; rfl
  | cons l rest ih =>
    intro num hall
    have h0 : startsWithS l addr = false := hall 0 (by simp)
    rw [detectIdLoop, h0]
    simp only [Bool.false_eq_true, if_false]
    exact ih (num + 1) (fun i hi => by
      have := hall (i + 1) (by simpa [Nat.succ_lt_succ_iff] using hi)
      simpa using this)

/-- C8: `detect_test_iface_id` caches the 0-based ordinal of the first
line of the bound-devices listing that starts with the test interface's
bus address; when no line matches, it performs no assignment, so a
previously unset `_test_iface_id` stays unset (and in general keeps its
previous value). -/
theorem claim_C8 (addr : String) (lines : List String) (cur : Option Nat) :
    (∀ i (hi : i < lines.length),
      startsWithS (lines.get ⟨i, hi⟩) addr = true →
      (∀ j (hj : j < i), startsWithS (lines.get ⟨j, lt_trans hj hi⟩) addr = false) →
      detect_test_iface_id addr lines cur = some i) ∧
    ((∀ i (hi : i < lines.length), startsWithS (lines.get ⟨i, hi⟩) addr = false) →
      detect_test_iface_id addr lines cur = cur) := by
  constructor
  · intro i hi hmatch hfirst
    unfold detect_test_iface_id
    rw [detectIdLoop_found addr lines 0 i hi hmatch hfirst]
    simp
  · intro hall
    unfold detect_test_iface_id
    rw [detectIdLoop_none addr lines 0 hall]

/-- Witness for `claim_C8` at a concrete input: the bus address matches
the first line of the listing, so the cached slot index becomes 0. -/
theorem claim_C8_witness :
    detect_test_iface_id "0000:b0:00.0"
      ["0000:b0:00.0 enp176s0 drv=igb_uio", "0000:18:00.0 ens785f0 drv=igb_uio"] none =
      some 0 := by
  have h := (claim_C8 "0000:b0:00.0"
      ["0000:b0:00.0 enp176s0 drv=igb_uio", "0000:18:00.0 ens785f0 drv=igb_uio"] none).1
    0 (by simp)
  apply h
  · decide
  · intro j hj
    exact absurd hj (Nat.not_lt_zero j)

/-! ## Python exceptions -/

/-- The exception classes the modelled code can raise. -/
inductive PyErr
  | calledProcessError
  | timeoutError
  | typeError
  | keyError
  | assertionError
  | valueError
  | fileNotFoundError
deriving DecidableEq, Repr

/-! ## `Server.tmux_kill` (`server.py` lines 276-295)

`tmux_kill(session_name)` executes the pipeline
`tmux list-sessions | cut -d":" -f 1 | grep NAME | xargs tmux kill-session -t`
through `exec`/`check_output`.  The remote tmux server state is the list
of existing session names.  `grep NAME` keeps the listed names containing
NAME as a substring.  The pipeline's exit status is that of `xargs`: with
no matching name, GNU `xargs` (no `-r`) still runs `tmux kill-session -t`
once with no target, which fails with a usage error, so `check_output`
raises `CalledProcessError`; with one match the session is killed; with
several matches `tmux kill-session -t` receives extra arguments and
fails.  The code's own TODO comment (`loadlatency.py` lines 143-145,
"stopping still fails when the tmux session does not exist") records the
failing case. -/

/-- Substring test (`grep`). -/
def hasSub : List Char → List Char → Bool
  | s, sub =>
    match s with
    | [] => sub.isEmpty
    | _ :: rest => sub.isPrefixOf s || hasSub rest sub

/-- `Server.tmux_kill` acting on the list of existing tmux sessions. -/
def tmux_kill (sessions : List String) (name : String) : Except PyErr (List String) :=
  match sessions.filter (fun s => hasSub s.data name.data) with
  | [] => .error .calledProcessError
  | [m] => .ok (sessions.erase m)
  | _ => .error .calledProcessError

/-- `Host.kill_guest` (`server.py` lines 1262-1272). -/
def kill_guest (sessions : List String) : Except PyErr (List String) :=
  tmux_kill sessions "qemu"

/-- `Server.stop_moongen_reflector` (`server.py` lines 837-847). -/
def stop_moongen_reflector (sessions : List String) : Except PyErr (List String) :=
  tmux_kill sessions "reflector"

/-- `LoadGen.stop_l2_load_latency` (`server.py` lines 1476-1486). -/
def stop_l2_load_latency (sessions : List String) : Except PyErr (List String) :=
  tmux_kill sessions "loadlatency"

/-- C7: the claim says `tmux_kill` (hence `kill_guest`,
`stop_moongen_reflector`, `stop_l2_load_latency`) never fails when no
session with the given name exists.  The code raises
`CalledProcessError` in exactly that case — when `grep` output is empty,
`xargs` still invokes `tmux kill-session -t` without a target and the
pipeline exits non-zero — as the repository's own TODO comment admits.
Evaluations at the failing inputs, plus the successful case for
contrast. -/
theorem claim_C7 :
    tmux_kill [] "loadlatency" = .error PyErr.calledProcessError ∧
    stop_l2_load_latency ["qemu"] = .error PyErr.calledProcessError ∧
    kill_guest [] = .error PyErr.calledProcessError ∧
    stop_moongen_reflector ["qemu", "loadlatency"] = .error PyErr.calledProcessError ∧
    tmux_kill ["qemu"] "qemu" = .ok [] := by
  refine ⟨?_, ?_, ?_, ?_, ?_⟩ <;> rfl

/-! ## `Host.cleanup_network` (`server.py` lines 1274-1288)

The network state of the machine: the set of existing link names and the
set of links with an xdp program attached.  Link names on a real machine
are unique, so removal by name is modelled with `filter`. -/

structure NetState where
  links : List String
  xdpOn : List String
deriving DecidableEq, Repr

/-- The static interface names of a `Host`. -/
structure HostCfg where
  test_iface : String
  test_tap : String
  test_bridge : String
  test_macvtap : String
deriving DecidableEq, Repr

/-- `sudo ip link delete IFACE || true`: deleting a missing link fails,
but the `|| true` makes the command succeed anyway; a deleted link loses
its xdp attachment. -/
def ipLinkDeleteTolerant (s : NetState) (iface : String) : NetState :=
  { links := s.links.filter (fun l => l ≠ iface),
    xdpOn := s.xdpOn.filter (fun l => l ≠ iface) }

/-- `Server.stop_xdp_reflector` (`server.py` lines 872-890):
`sudo ip link set IFACE xdpgeneric off` — succeeds (as a no-op when no
program is attached) iff the link exists, no `|| true` guard. -/
def stop_xdp_reflector (s : NetState) (iface : String) : Except PyErr NetState :=
  if iface ∈ s.links then .ok { s with xdpOn := s.xdpOn.filter (fun l => l ≠ iface) }
  else .error .calledProcessError

/-- `Host.destroy_test_br_tap` (`server.py` lines 1102-1113). -/
def destroy_test_br_tap (h : HostCfg) (s : NetState) : NetState :=
  ipLinkDeleteTolerant (ipLinkDeleteTolerant s h.test_tap) h.test_bridge

/-- `Host.destroy_test_macvtap` (`server.py` lines 1138-1148). -/
def destroy_test_macvtap (h : HostCfg) (s : NetState) : NetState :=
  ipLinkDeleteTolerant s h.test_macvtap

/-- `Host.cleanup_network` (`server.py` lines 1274-1288): stop the xdp
reflector on the test interface, then remove the bridged artifacts, then
the macvtap. -/
def cleanup_network (h : HostCfg) (s : NetState) : Except PyErr NetState :=
  match stop_xdp_reflector s h.test_iface with
  | .error e => .error e
  | .ok s1 => .ok (destroy_test_macvtap h (destroy_test_br_tap h s1))

/-- Closed form of the state `cleanup_network` leaves behind when the
test interface exists. -/
def cleanupState (h : HostCfg) (s : NetState) : NetState :=
  { links := ((s.links.filter (fun l => l ≠ h.test_tap)).filter
        (fun l => l ≠ h.test_bridge)).filter (fun l => l ≠ h.test_macvtap),
    xdpOn := (((s.xdpOn.filter (fun l => l ≠ h.test_iface)).filter
        (fun l => l ≠ h.test_tap)).filter
        (fun l => l ≠ h.test_bridge)).filter (fun l => l ≠ h.test_macvtap) }

theorem cleanup_network_eq (h : HostCfg) (s : NetState) (hiface : h.test_iface ∈ s.links) :
    cleanup_network h s = .ok (cleanupState h s) := by
  simp [cleanup_network, stop_xdp_reflector, hiface, destroy_test_macvtap,
    destroy_test_br_tap, ipLinkDeleteTolerant, cleanupState]

theorem cleanupState_links_pred (h : HostCfg) (s : NetState) :
    ∀ x ∈ (cleanupState h s).links,
      x ≠ h.test_tap ∧ x ≠ h.test_bridge ∧ x ≠ h.test_macvtap := by
  intro x hx
  simp only [cleanupState, List.mem_filter, decide_eq_true_eq] at hx
  tauto

theorem cleanupState_xdp_pred (h : HostCfg) (s : NetState) :
    ∀ x ∈ (cleanupState h s).xdpOn,
      x ≠ h.test_iface ∧ x ≠ h.test_tap ∧ x ≠ h.test_bridge ∧ x ≠ h.test_macvtap := by
  intro x hx
  simp only [cleanupState, List.mem_filter, decide_eq_true_eq] at hx
  tauto

theorem cleanupState_idem (h : HostCfg) (s : NetState) :
    cleanupState h (cleanupState h s) = cleanupState h s := by
  have hl := cleanupState_links_pred h s
  have hx := cleanupState_xdp_pred h s
  conv_lhs => rw [cleanupState]
  have l1 : (cleanupState h s).links.filter (fun l => l ≠ h.test_tap) =
      (cleanupState h s).links :=
    List.filter_eq_self.mpr (fun x hm => by simpa using (hl x hm).1)
  have l2 : (cleanupState h s).links.filter (fun l => l ≠ h.test_bridge) =
      (cleanupState h s).links :=
    List.filter_eq_self.mpr (fun x hm => by simpa using (hl x hm).2.1)
  have l3 : (cleanupState h s).links.filter (fun l => l ≠ h.test_macvtap) =
      (cleanupState h s).links :=
    List.filter_eq_self.mpr (fun x hm => by simpa using (hl x hm).2.2)
  have x1 : (cleanupState h s).xdpOn.filter (fun l => l ≠ h.test_iface) =
      (cleanupState h s).xdpOn :=
    List.filter_eq_self.mpr (fun x hm => by simpa using (hx x hm).1)
  have x2 : (cleanupState h s).xdpOn.filter (fun l => l ≠ h.test_tap) =
      (cleanupState h s).xdpOn :=
    List.filter_eq_self.mpr (fun x hm => by simpa using (hx x hm).2.1)
  have x3 : (cleanupState h s).xdpOn.filter (fun l => l ≠ h.test_bridge) =
      (cleanupState h s).xdpOn :=
    List.filter_eq_self.mpr (fun x hm => by simpa using (hx x hm).2.2.1)
  have x4 : (cleanupState h s).xdpOn.filter (fun l => l ≠ h.test_macvtap) =
      (cleanupState h s).xdpOn :=
    List.filter_eq_self.mpr (fun x hm => by simpa using (hx x hm).2.2.2)
  rw [l1, l2, l3, x1, x2, x3, x4]

/-- C2: `cleanup_network` never raises when the physical test interface
exists (its name being distinct from the tap/bridge/macvtap artifact
names): stopping the xdp reflector tolerates an absent attachment, and
every deletion carries `|| true`; a second call returns the same state,
and on a host where no artifact exists and no xdp program is attached it
returns the state unchanged (an xdp attachment can only sit on an
existing link). -/
theorem claim_C2 (h : HostCfg) (s : NetState)
    (hiface : h.test_iface ∈ s.links)
    (hne₁ : h.test_iface ≠ h.test_tap) (hne₂ : h.test_iface ≠ h.test_bridge)
    (hne₃ : h.test_iface ≠ h.test_macvtap) :
    ∃ s', cleanup_network h s = .ok s' ∧
      cleanup_network h s' = .ok s' ∧
      h.test_tap ∉ s'.links ∧ h.test_bridge ∉ s'.links ∧ h.test_macvtap ∉ s'.links ∧
      (h.test_tap ∉ s.links → h.test_bridge ∉ s.links → h.test_macvtap ∉ s.links →
        h.test_iface ∉ s.xdpOn → (∀ x ∈ s.xdpOn, x ∈ s.links) → s' = s) := by
  refine ⟨cleanupState h s, cleanup_network_eq h s hiface, ?_, ?_, ?_, ?_, ?_⟩
  · have hif' : h.test_iface ∈ (cleanupState h s).links := by
      simp only [cleanupState, List.mem_filter, decide_eq_true_eq]
      exact ⟨⟨⟨hiface, hne₁⟩, hne₂⟩, hne₃⟩
    rw [cleanup_network_eq h _ hif', cleanupState_idem]
  · intro hm
    exact absurd ((cleanupState_links_pred h s _ hm).1) (by simp)
  · intro hm
    exact absurd ((cleanupState_links_pred h s _ hm).2.1) (by simp)
  · intro hm
    exact absurd ((cleanupState_links_pred h s _ hm).2.2) (by simp)
  · intro ht hb hm hxdp hsub
    have htx : h.test_tap ∉ s.xdpOn := fun hc => ht (hsub _ hc)
    have hbx : h.test_bridge ∉ s.xdpOn := fun hc => hb (hsub _ hc)
    have hmx : h.test_macvtap ∉ s.xdpOn := fun hc => hm (hsub _ hc)
    have eid : ∀ (l : List String) (a : String), a ∉ l →
        l.filter (fun x => x ≠ a) = l := by
      intro l a ha
      refine List.filter_eq_self.mpr ?_
      intro x hm2
      simp only [ne_eq, decide_eq_true_eq]
      intro hc
      exact ha (hc ▸ hm2)
    have hlinks : (cleanupState h s).links = s.links := by
      simp only [cleanupState]
      rw [eid _ _ ht, eid _ _ hb, eid _ _ hm]
    have hxdps : (cleanupState h s).xdpOn = s.xdpOn := by
      simp only [cleanupState]
      rw [eid _ _ hxdp, eid _ _ htx, eid _ _ hbx, eid _ _ hmx]
    calc cleanupState h s = ⟨(cleanupState h s).links, (cleanupState h s).xdpOn⟩ := rfl
      _ = ⟨s.links, s.xdpOn⟩ := by rw [hlinks, hxdps]
      _ = s := rfl

/-- Witness for `claim_C2` at a concrete input: a host carrying a test
bridge, a test tap and an attached reflector. -/
theorem claim_C2_witness :
    ("eth0" : String) ∈ (⟨["eth0", "tap1", "br0"], ["eth0"]⟩ : NetState).links ∧
    ∃ s', cleanup_network ⟨"eth0", "tap1", "br0", "macvtap1"⟩
        ⟨["eth0", "tap1", "br0"], ["eth0"]⟩ = .ok s' ∧
      cleanup_network ⟨"eth0", "tap1", "br0", "macvtap1"⟩ s' = .ok s' ∧
      ("tap1" : String) ∉ s'.links ∧ ("br0" : String) ∉ s'.links ∧
      ("macvtap1" : String) ∉ s'.links ∧
      (("tap1" : String) ∉ (["eth0", "tap1", "br0"] : List String) →
        ("br0" : String) ∉ (["eth0", "tap1", "br0"] : List String) →
        ("macvtap1" : String) ∉ (["eth0", "tap1", "br0"] : List String) →
        ("eth0" : String) ∉ (["eth0"] : List String) →
        (∀ x ∈ (["eth0"] : List String), x ∈ (["eth0", "tap1", "br0"] : List String)) →
        s' = ⟨["eth0", "tap1", "br0"], ["eth0"]⟩) :=
  ⟨by decide,
    claim_C2 ⟨"eth0", "tap1", "br0", "macvtap1"⟩ ⟨["eth0", "tap1", "br0"], ["eth0"]⟩
      (by decide) (by decide) (by decide) (by decide)⟩

/-! ## Histogram files and accumulation

`autotest.py` lines 772-821 (`accumulate_histograms`) and
`loadlatency.py` lines 153-181 (`LoadLatencyTest.accumulate`).
Histogram files hold `bucket,count` lines; `#` lines are comments.
File contents are split into lines as Python's file iteration does
(the trailing newline of each line is immaterial because `int()` strips
whitespace, so lines are modelled without it); `int()` is modelled for
the non-negative values the histograms hold. -/

/-- Python's `str.split(sep)` for a one-character separator. -/
def splitOnChar (sep : Char) : List Char → List (List Char)
  | [] => [[]]
  | c :: rest =>
    if c = sep then [] :: splitOnChar sep rest
    else
      match splitOnChar sep rest with
      | [] => [[c]]
      | first :: others => (c :: first) :: others

/-- A trailing newline yields no extra (empty) line in Python file iteration. -/
def dropTrailingEmpty (parts : List (List Char)) : List (List Char) :=
  match parts.getLast? with
  | some [] => parts.dropLast
  | _ => parts

/-- The lines of a file's content. -/
def fileLines (s : String) : List String :=
  (dropTrailingEmpty (splitOnChar '\n' s.data)).map (fun l => ⟨l⟩)

/-- Whitespace as stripped by Python's `int()`. -/
def isWS (c : Char) : Bool := c == ' ' || c == '\n' || c == '\t' || c == '\r'

/-- Strip leading and trailing whitespace. -/
def stripWS (l : List Char) : List Char :=
  ((l.dropWhile isWS).reverse.dropWhile isWS).reverse

/-- Python's `int(s)` for the non-negative values histogram files hold;
`none` models `ValueError`. -/
def pyInt? (l : List Char) : Option Nat :=
  let t := stripWS l
  if t.isEmpty then none
  else if t.all Char.isDigit then some (parseDec t) else none

/-- One `histogram[key] += value` update of the Python dict, which keeps
keys in first-insertion order. -/
def histAdd (hist : List (Nat × Nat)) (k v : Nat) : List (Nat × Nat) :=
  match hist with
  | [] => [(k, v)]
  | (k', v') :: rest => if k' = k then (k', v' + v) :: rest else (k', v') :: histAdd rest k v

/-- One iteration of the accumulation loop body over a line:
skip comments, else `key, value = [int(n) for n in line.split(',')]`
(which needs exactly two fields) and add to the histogram. -/
def histLineStep (hist : List (Nat × Nat)) (line : String) : Except PyErr (List (Nat × Nat)) :=
  if startsWithS line "#" then .ok hist
  else
    match (splitOnChar ',' line.data).map pyInt? with
    | [some k, some v] => .ok (histAdd hist k v)
    | _ => .error .valueError

/-- Fold `histLineStep` over the lines of one histogram file. -/
def histFoldLines : List (Nat × Nat) → List String → Except PyErr (List (Nat × Nat))
  | hist, [] => .ok hist
  | hist, line :: rest =>
    match histLineStep hist line with
    | .error e => .error e
    | .ok h2 => histFoldLines h2 rest

/-- The accumulated histogram written back out, one `key,value` line per
entry in insertion order. -/
def histRender (hist : List (Nat × Nat)) : String :=
  ⟨hist.foldr (fun kv acc => decimal kv.1 ++ (',' :: (decimal kv.2 ++ ('\n' :: acc)))) []⟩

/-- `test_infix` of `autotest.py` (line 668-683). -/
def at_test_infix (interface : String) (rate nthreads rep : Nat) : String :=
  interface ++ "_r" ++ natStr rate ++ "_t" ++ natStr nthreads ++ "_" ++ natStr rep

/-- `output_filepath` of `autotest.py` (lines 686-711). -/
def at_output_filepath (outdir interface : String) (rate nthreads rep : Nat) : String :=
  path_join outdir ("output_" ++ at_test_infix interface rate nthreads rep ++ ".log")

/-- `histogram_filepath` of `autotest.py` (lines 714-739). -/
def at_histogram_filepath (outdir interface : String) (rate nthreads rep : Nat) : String :=
  path_join outdir ("histogram_" ++ at_test_infix interface rate nthreads rep ++ ".csv")

/-- `test_done` of `autotest.py` (lines 742-769). -/
def at_test_done (outdir interface : String) (rate nthreads rep : Nat) (fs : FS) : Bool :=
  isfile fs (at_output_filepath outdir interface rate nthreads rep) &&
    isfile fs (at_histogram_filepath outdir interface rate nthreads rep)

/-- The `for rep in range(reps)` loop of `accumulate_histograms`
(`autotest.py` lines 804-817): assert the repetition is done, read and
fold its histogram file, continue with the next repetition.  First
argument of the recursion is the number of repetitions left, second the
current repetition index. -/
def accReps (outdir interface : String) (rate nthreads : Nat) (fs : FS) :
    Nat → Nat → List (Nat × Nat) → Except PyErr (List (Nat × Nat))
  | 0, _, hist => .ok hist
  | n + 1, rep, hist =>
    if at_test_done outdir interface rate nthreads rep fs then
      match fsGet fs (at_histogram_filepath outdir interface rate nthreads rep) with
      | none => .error .fileNotFoundError
      | some content =>
        match histFoldLines hist (fileLines content) with
        | .error e => .error e
        | .ok hist2 => accReps outdir interface rate nthreads fs n (rep + 1) hist2
    else .error .assertionError

/-- `accumulate_histograms` of `autotest.py` (lines 772-821).  Returns
the filesystem after the call together with the exception it raised, if
any. -/
def accumulate_histograms (outdir interface : String) (rate nthreads reps : Nat) (fs : FS) :
    FS × Option PyErr :=
  if reps = 0 then (fs, some .assertionError)
  else if reps = 1 then (fs, none)
  else
    let accPath := path_join outdir
      ("acc_histogram_" ++ interface ++ "_r" ++ natStr rate ++ "_t" ++ natStr nthreads ++ ".csv")
    if isfile fs accPath then (fs, none)
    else
      match accReps outdir interface rate nthreads fs reps 0 [] with
      | .error e => (fs, some e)
      | .ok hist => (fsSet fs accPath (histRender hist), none)

/-- `LoadLatencyTest.accumulate` of `loadlatency.py` (lines 153-181).
After the `repetitions == 1` early return and the skip-if-present check,
line 167 runs `for repetition in self.repetitions:` — iterating over the
*int* `self.repetitions`, which raises `TypeError` before any iteration;
the accumulation body below it is unreachable. -/
def LoadLatencyTest.accumulate (t : LoadLatencyTest) (fs : FS) : FS × Option PyErr :=
  if t.repetitions = 0 then (fs, some .assertionError)
  else if t.repetitions = 1 then (fs, none)
  else
    if isfile fs (path_join t.outputdir ("acc_histogram_" ++ t.testInfix ++ ".csv")) then
      (fs, none)
    else (fs, some .typeError)

/-- The spec scenario's filesystem: three finished repetitions of the
`pnic`/rate 10/one-thread group with histograms `{(0,5),(1,3)}`,
`{(0,2),(2,1)}` and `{(0,1)}` (the first carrying a `#` comment line). -/
def c4fs : FS :=
  [ (at_output_filepath "out" "pnic" 10 1 0, "moongen output"),
    (at_histogram_filepath "out" "pnic" 10 1 0, "# bucket,count\n0,5\n1,3\n"),
    (at_output_filepath "out" "pnic" 10 1 1, "moongen output"),
    (at_histogram_filepath "out" "pnic" 10 1 1, "0,2\n2,1\n"),
    (at_output_filepath "out" "pnic" 10 1 2, "moongen output"),
    (at_histogram_filepath "out" "pnic" 10 1 2, "0,1\n") ]

/-- A `LoadLatencyTest` with three repetitions, for evaluating
`LoadLatencyTest.accumulate`. -/
def c4test : LoadLatencyTest :=
  ⟨Machine.host, Interface.pnic, "64:9d:99:b1:0b:59", "", false, false,
    Reflector.moongen, 1, 30, 3, "out"⟩

/-- The filesystem holding `c4test`'s three finished artifact pairs. -/
def c4testFS : FS :=
  [ (LoadLatencyTest.output_filepath c4test 0, "moongen output"),
    (LoadLatencyTest.histogram_filepath c4test 0, "0,5\n1,3\n"),
    (LoadLatencyTest.output_filepath c4test 1, "moongen output"),
    (LoadLatencyTest.histogram_filepath c4test 1, "0,2\n2,1\n"),
    (LoadLatencyTest.output_filepath c4test 2, "moongen output"),
    (LoadLatencyTest.histogram_filepath c4test 2, "0,1\n") ]

/-- C4: `accumulate_histograms` (`autotest.py`) sums counts per bucket
across the repetitions ignoring `#` comment lines — on the spec's example
it writes exactly `{(0,8),(1,3),(2,1)}`; with `reps == 1` it returns
without touching anything and without error; with a missing artifact
pair it fails its assertion and writes nothing.  But the
`LoadLatencyTest.accumulate` twin in `loadlatency.py` raises `TypeError`
on every run with more than one repetition (line 167 iterates the int
`self.repetitions` instead of `range(self.repetitions)`), even with all
artifact pairs present — the code cannot perform the accumulation the
claim describes (its `reps == 1` early return does work). -/
theorem claim_C4 :
    accumulate_histograms "out" "pnic" 10 1 3 c4fs =
      (fsSet c4fs "out/acc_histogram_pnic_r10_t1.csv" "0,8\n1,3\n2,1\n", none) ∧
    (∀ (outdir iface : String) (rate nthreads : Nat) (fs : FS),
      accumulate_histograms outdir iface rate nthreads 1 fs = (fs, none)) ∧
    accumulate_histograms "out" "pnic" 10 1 4 c4fs = (c4fs, some PyErr.assertionError) ∧
    LoadLatencyTest.accumulate c4test c4testFS = (c4testFS, some PyErr.typeError) ∧
    LoadLatencyTest.accumulate { c4test with repetitions := 1 } c4testFS = (c4testFS, none) := by
  refine ⟨by decide, ?_, by decide, by decide, by decide⟩
  intro outdir iface rate nthreads fs
  rfl

/-! ## `LoadLatencyTest.run` (`loadlatency.py` lines 113-151)

For each repetition not yet done: delete stale remote result files and
launch the load-latency session (both inside `try/except Exception`,
logging and `continue` on failure), sleep, wait for the remote histogram
file (inside `try/except TimeoutError`, logging and `continue` on
timeout), then `copy_from` the remote output log and histogram — the two
`copy_from` calls are *not* inside any `try`.  The remote side is
abstracted by an `LLEnv`: per repetition, whether the `rm` exec and the
launch succeed, whether the histogram file appears in time, and the
contents the two transfers deliver (`none` = the transfer raises).
Every remote operation performed is recorded in the trace. -/

/-- The remote steps of one repetition. -/
inductive TStep
  | execRm
  | runLoad
  | waitHist
  | copyOut
  | copyHist
deriving DecidableEq, Repr

/-- A remote operation of the sweep: a test step or a generator-level
lifecycle action (`LoadLatencyTestGenerator.run`). -/
inductive GOp
  | testOp (t : LoadLatencyTest) (rep : Nat) (step : TStep)
  | killGuestOp
  | cleanupNetOp
  | detectIfaceOp
  | setupIfaceOp (i : Interface)
  | startReflOp (r : Reflector)
  | stopReflOp (r : Reflector)
  | runGuestOp (m : Machine) (i : Interface) (q : String) (v io : Bool)
  | waitConnOp
  | connTimeoutOp
  | detectGuestIfaceOp
  | accOp (t : LoadLatencyTest)
deriving DecidableEq, Repr

/-- Remote-side behaviour of the load generator for one test, per
repetition index. -/
structure LLEnv where
  rmOk : Nat → Bool
  launchOk : Nat → Bool
  histOk : Nat → Bool
  outContent : Nat → Option String
  histContent : Nat → Option String

/-- The body of the `for repetition in range(self.repetitions)` loop of
`LoadLatencyTest.run`: resulting filesystem, operations performed, and
the exception escaping the body, if any. -/
def runRep (t : LoadLatencyTest) (env : LLEnv) (fs : FS) (rep : Nat) :
    FS × List GOp × Option PyErr :=
  if LoadLatencyTest.testDone t fs rep then (fs, [], none)
  else if env.rmOk rep = false then (fs, [.testOp t rep .execRm], none)
  else if env.launchOk rep = false then
    (fs, [.testOp t rep .execRm, .testOp t rep .runLoad], none)
  else if env.histOk rep = false then
    (fs, [.testOp t rep .execRm, .testOp t rep .runLoad, .testOp t rep .waitHist], none)
  else
    match env.outContent rep with
    | none =>
      (fs, [.testOp t rep .execRm, .testOp t rep .runLoad, .testOp t rep .waitHist,
        .testOp t rep .copyOut], some .calledProcessError)
    | some oc =>
      match env.histContent rep with
      | none =>
        (fsSet fs (t.output_filepath rep) oc,
          [.testOp t rep .execRm, .testOp t rep .runLoad, .testOp t rep .waitHist,
            .testOp t rep .copyOut, .testOp t rep .copyHist], some .calledProcessError)
      | some hc =>
        (fsSet (fsSet fs (t.output_filepath rep) oc) (t.histogram_filepath rep) hc,
          [.testOp t rep .execRm, .testOp t rep .runLoad, .testOp t rep .waitHist,
            .testOp t rep .copyOut, .testOp t rep .copyHist], none)

/-- The repetition loop: first argument is the number of repetitions
left, second the current repetition index.  An exception escaping a body
aborts the remaining repetitions. -/
def runAux (t : LoadLatencyTest) (env : LLEnv) : Nat → Nat → FS → FS × List GOp × Option PyErr
  | 0, _, fs => (fs, [], none)
  | n + 1, rep, fs =>
    match runRep t env fs rep with
    | (fs1, tr1, some e) => (fs1, tr1, some e)
    | (fs1, tr1, none) =>
      match runAux t env n (rep + 1) fs1 with
      | (fs2, tr2, e2) => (fs2, tr1 ++ tr2, e2)

/-- `LoadLatencyTest.run(loadgen)`. -/
def LoadLatencyTest.run (t : LoadLatencyTest) (env : LLEnv) (fs : FS) :
    FS × List GOp × Option PyErr :=
  runAux t env t.repetitions 0 fs

theorem fsGet_set_ne (fs : FS) {p q : String} (h : p ≠ q) (c : String) :
    fsGet (fsSet fs p c) q = fsGet fs q := by
  simp [fsSet, fsGet, h]

theorem out_ne_hist {t t' : LoadLatencyTest} (hod : t.outputdir = t'.outputdir) (r r' : Nat) :
    LoadLatencyTest.output_filepath t r ≠ LoadLatencyTest.histogram_filepath t' r' := by
  intro h
  unfold LoadLatencyTest.output_filepath LoadLatencyTest.histogram_filepath at h
  rw [hod] at h
  have hf := path_join_inj (no_slash_outName t r) (no_slash_histName t' r') h
  have hd := congrArg String.data hf
  rw [outName_data, histName_data] at hd
  have : ('o' : Char) = 'h' := by injection hd
  exact absurd this (by decide)

theorem out_ne_out {t : LoadLatencyTest} {r r' : Nat} (h : r ≠ r') :
    LoadLatencyTest.output_filepath t r ≠ LoadLatencyTest.output_filepath t r' :=
  fun hc => h (output_filepath_inj rfl hc).2

theorem hist_ne_hist {t : LoadLatencyTest} {r r' : Nat} (h : r ≠ r') :
    LoadLatencyTest.histogram_filepath t r ≠ LoadLatencyTest.histogram_filepath t r' :=
  fun hc => h (histogram_filepath_inj rfl hc).2

/-- Writing the artifacts of repetition `r` does not change the
done-state of a different repetition. -/
theorem testDone_set_other (t : LoadLatencyTest) (fs : FS) {r r' : Nat} (hne : r ≠ r')
    (oc hc : String) :
    LoadLatencyTest.testDone t
      (fsSet (fsSet fs (LoadLatencyTest.output_filepath t r) oc)
        (LoadLatencyTest.histogram_filepath t r) hc) r' =
      LoadLatencyTest.testDone t fs r' := by
  unfold LoadLatencyTest.testDone isfile
  rw [fsGet_set_ne _ (out_ne_hist rfl r' r).symm, fsGet_set_ne _ (out_ne_out hne),
    fsGet_set_ne _ (hist_ne_hist hne), fsGet_set_ne _ (fun hc2 => out_ne_hist rfl r r' hc2)]

theorem runAux_done (t : LoadLatencyTest) (env : LLEnv) :
    ∀ n rep fs, (∀ j < n, LoadLatencyTest.testDone t fs (rep + j) = true) →
      runAux t env n rep fs = (fs, [], none) := by
  intro n
  induction n with
  | zero => intro rep fs _; rfl
  | succ n ih =>
    intro rep fs h
    have h0 : LoadLatencyTest.testDone t fs rep = true := by
      have := h 0 (by omega)
      simpa using this
    have hrest := ih (rep + 1) fs (fun j hj => by
      have := h (j + 1) (by omega)
      rw [show rep + 1 + j = rep + (j + 1) by omega]
      exact this)
    simp [runAux, runRep, h0, hrest]

/-- C3: if every repetition of the test already has both artifact files,
`run` performs no remote operation at all and returns the filesystem
unchanged, raising nothing. -/
theorem claim_C3 (t : LoadLatencyTest) (env : LLEnv) (fs : FS)
    (h : ∀ r < t.repetitions, LoadLatencyTest.testDone t fs r = true) :
    LoadLatencyTest.run t env fs = (fs, [], none) := by
  unfold LoadLatencyTest.run
  exact runAux_done t env t.repetitions 0 fs (fun j hj => by
    have := h j hj
    simpa using this)

/-- A load-generator environment in which every remote operation succeeds. -/
def envAllOk : LLEnv :=
  ⟨fun _ => true, fun _ => true, fun _ => true, fun _ => some "out!", fun _ => some "0,1\n"⟩

/-- Witness for `claim_C3` at a concrete input: all three repetitions of
`c4test` are done in `c4testFS`. -/
theorem claim_C3_witness :
    (∀ r < c4test.repetitions, LoadLatencyTest.testDone c4test c4testFS r = true) ∧
    LoadLatencyTest.run c4test envAllOk c4testFS = (c4testFS, [], none) :=
  ⟨by decide, claim_C3 c4test envAllOk c4testFS (by decide)⟩

theorem runRep_spec (t : LoadLatencyTest) (env : LLEnv) (fs : FS) (rep : Nat)
    (h1 : env.outContent rep ≠ none) (h2 : env.histContent rep ≠ none) :
    (runRep t env fs rep).2.2 = none ∧
    (LoadLatencyTest.testDone t fs rep = false →
      GOp.testOp t rep TStep.execRm ∈ (runRep t env fs rep).2.1) ∧
    (∀ r', r' ≠ rep →
      LoadLatencyTest.testDone t (runRep t env fs rep).1 r' =
        LoadLatencyTest.testDone t fs r') := by
  rcases ho : env.outContent rep with _ | oc
  · exact absurd ho h1
  rcases hh : env.histContent rep with _ | hcv
  · exact absurd hh h2
  unfold runRep
  rw [ho, hh]
  split_ifs with hd hrm hl hw
  · refine ⟨rfl, ?_, fun r' _ => rfl⟩
    intro hf
    rw [hf] at hd
    cases hd
  · exact ⟨rfl, fun _ => by simp, fun r' _ => rfl⟩
  · exact ⟨rfl, fun _ => by simp, fun r' _ => rfl⟩
  · exact ⟨rfl, fun _ => by simp, fun r' _ => rfl⟩
  · exact ⟨rfl, fun _ => by simp,
      fun r' hne => testDone_set_other t fs (fun hc2 => hne hc2.symm) oc hcv⟩

theorem runAux_copies (t : LoadLatencyTest) (env : LLEnv)
    (hc : ∀ r, env.outContent r ≠ none ∧ env.histContent r ≠ none) :
    ∀ n rep fs, (runAux t env n rep fs).2.2 = none ∧
      (∀ j < n, LoadLatencyTest.testDone t fs (rep + j) = false →
        GOp.testOp t (rep + j) TStep.execRm ∈ (runAux t env n rep fs).2.1) := by
  intro n
  induction n with
  | zero =>
    intro rep fs
    refine ⟨rfl, ?_⟩
    intro j hj
    omega
  | succ n ih =>
    intro rep fs
    obtain ⟨hre, hrm, hrd⟩ := runRep_spec t env fs rep (hc rep).1 (hc rep).2
    rcases hrep : runRep t env fs rep with ⟨fs1, tr1, e1⟩
    rw [hrep] at hre hrm hrd
    simp only at hre hrm hrd
    subst hre
    obtain ⟨ihe, ihm⟩ := ih (rep + 1) fs1
    have hu : runAux t env (n + 1) rep fs =
        ((runAux t env n (rep + 1) fs1).1, tr1 ++ (runAux t env n (rep + 1) fs1).2.1,
          (runAux t env n (rep + 1) fs1).2.2) := by
      rcases hr2 : runAux t env n (rep + 1) fs1 with ⟨fs2, tr2, e2⟩
      simp [runAux, hrep, hr2]
    constructor
    · rw [hu]
      exact ihe
    · intro j hj hnd
      rw [hu]
      cases j with
      | zero =>
        have := hrm (by simpa using hnd)
        simp only [Nat.add_zero]
        exact List.mem_append.mpr (Or.inl (by simpa using this))
      | succ j' =>
        have hne : rep + (j' + 1) ≠ rep := by omega
        have hd2 : LoadLatencyTest.testDone t fs1 (rep + 1 + j') = false := by
          have heq := hrd (rep + (j' + 1)) hne
          rw [show rep + 1 + j' = rep + (j' + 1) by omega, heq]
          exact hnd
        have := ihm j' (by omega) hd2
        rw [show rep + (j' + 1) = rep + 1 + j' by omega]
        exact List.mem_append.mpr (Or.inr this)

/-- C1, amended.  A failure launching the load-and-measure session and a
timeout of the bounded wait for the remote histogram are caught and
logged, and the loop proceeds to the next repetition — provided both
artifact transfers succeed, `run` raises nothing and every repetition
that was not already done is attempted.  A failure while copying either
artifact, however, escapes `run` (the `copy_from` calls sit outside the
`try` blocks, `loadlatency.py` lines 148-151) and aborts the remaining
repetitions; see the counterexample. -/
theorem claim_C1 (t : LoadLatencyTest) (env : LLEnv) (fs : FS)
    (hc : ∀ r, env.outContent r ≠ none ∧ env.histContent r ≠ none) :
    (LoadLatencyTest.run t env fs).2.2 = none ∧
    (∀ r < t.repetitions, LoadLatencyTest.testDone t fs r = false →
      GOp.testOp t r TStep.execRm ∈ (LoadLatencyTest.run t env fs).2.1) := by
  obtain ⟨he, hm⟩ := runAux_copies t env hc t.repetitions 0 fs
  refine ⟨he, ?_⟩
  intro r hr hnd
  have := hm r hr (by simpa using hnd)
  simpa using this

/-- A two-repetition guest test for exercising `run`. -/
def c1test : LoadLatencyTest :=
  ⟨Machine.pcvm, Interface.bridge, "52:54:00:fa:00:60", "qemu-build", true, false,
    Reflector.xdp, 1, 1, 2, "out"⟩

/-- Environment in which every step succeeds except that the transfer of
the output log raises on every repetition. -/
def c1envCopyFail : LLEnv :=
  ⟨fun _ => true, fun _ => true, fun _ => true, fun _ => none, fun _ => some "0,1\n"⟩

/-- Environment in which the launch of repetition 0 fails and everything
else succeeds. -/
def c1wEnv : LLEnv :=
  ⟨fun _ => true, fun r => r != 0, fun _ => true, fun _ => some "out!", fun _ => some "0,1\n"⟩

/-- C1, counterexample.  The claim says a failure at the transfer step is
caught and the loop proceeds to the next repetition.  In `c1envCopyFail`
the transfer of repetition 0's output log raises: `run` ends with an
uncaught `CalledProcessError` and repetition 1 — although not done — is
never attempted (no operation of repetition 1 appears in the trace). -/
theorem claim_C1_counterexample :
    LoadLatencyTest.testDone c1test [] 1 = false ∧
    (LoadLatencyTest.run c1test c1envCopyFail []).2.2 = some PyErr.calledProcessError ∧
    GOp.testOp c1test 1 TStep.execRm ∉ (LoadLatencyTest.run c1test c1envCopyFail []).2.1 := by
  refine ⟨by decide, by decide, by decide⟩

/-- Witness for `claim_C1` at a concrete input: the launch of repetition
0 fails, yet `run` raises nothing and repetition 1 is attempted. -/
theorem claim_C1_witness :
    (LoadLatencyTest.run c1test c1wEnv []).2.2 = none ∧
    GOp.testOp c1test 1 TStep.execRm ∈ (LoadLatencyTest.run c1test c1wEnv []).2.1 :=
  ⟨(claim_C1 c1test c1wEnv [] (fun r => ⟨by simp [c1wEnv], by simp [c1wEnv]⟩)).1,
    (claim_C1 c1test c1wEnv [] (fun r => ⟨by simp [c1wEnv], by simp [c1wEnv]⟩)).2
      1 (by decide) (by decide)⟩

/-! ## The tests-to-do table of `test_load_latency` (`autotest.py` lines 905-990)

`tests_todo` is a nested dict comprehension: interface → rate →
nthreads → repetition → still-to-do flag, where the nthreads keys come
from `threads if interface != 'macvtap' else [1]`.  The subsequent
needed-interfaces computation (lines 921-932) and the run loop (lines
983-989) index the table with `for nthreads in threads`.  Dicts are
association lists in comprehension order; a missing key raises
`KeyError`. -/

/-- Python dict lookup: `KeyError` when the key is missing. -/
def dictGet {α β : Type} [DecidableEq α] : List (α × β) → α → Except PyErr β
  | [], _ => .error .keyError
  | (k, v) :: rest, q => if k = q then .ok v else dictGet rest q

/-- The nested `tests_todo` dict. -/
abbrev TodoDict := List (String × List (Nat × List (Nat × List (Nat × Bool))))

/-- The `tests_todo` comprehension (`autotest.py` lines 906-918). -/
def testsTodo (outdir : String) (interfaces : List String) (rates threads : List Nat)
    (reps : Nat) (fs : FS) : TodoDict :=
  interfaces.map (fun interface =>
    (interface, rates.map (fun rate =>
      (rate, (if interface = "macvtap" then [1] else threads).map (fun nthreads =>
        (nthreads, (List.range reps).map (fun rep =>
          (rep, ! at_test_done outdir interface rate nthreads rep fs))))))))

/-- Inner loop of the needed-interfaces computation: `for nthreads in
threads: needed = any(tests_todo[interface][rate][nthreads].values());
if needed: break`. -/
def neededForRate (todoRate : List (Nat × List (Nat × Bool))) :
    List Nat → Except PyErr Bool
  | [] => .ok false
  | n :: rest =>
    match dictGet todoRate n with
    | .error e => .error e
    | .ok d => if d.any (fun kv => kv.2) then .ok true else neededForRate todoRate rest

/-- Outer loop of the needed-interfaces computation over the rates. -/
def neededIfaceRates (todoIface : List (Nat × List (Nat × List (Nat × Bool))))
    (threads : List Nat) : List Nat → Except PyErr Bool
  | [] => .ok false
  | rate :: rest =>
    match dictGet todoIface rate with
    | .error e => .error e
    | .ok todoRate =>
      match neededForRate todoRate threads with
      | .error e => .error e
      | .ok true => .ok true
      | .ok false => neededIfaceRates todoIface threads rest

/-- The needed-interfaces computation (`autotest.py` lines 921-932). -/
def interfaces_needed (outdir : String) (interfaces : List String) (rates threads : List Nat)
    (reps : Nat) (fs : FS) : Except PyErr (List String) :=
  ifNeededLoop (testsTodo outdir interfaces rates threads reps fs) rates threads interfaces
where
  ifNeededLoop (todo : TodoDict) (rates threads : List Nat) :
      List String → Except PyErr (List String)
    | [] => .ok []
    | interface :: rest =>
      match dictGet todo interface with
      | .error e => .error e
      | .ok ti =>
        match neededIfaceRates ti threads rates with
        | .error e => .error e
        | .ok b =>
          match ifNeededLoop todo rates threads rest with
          | .error e => .error e
          | .ok l => .ok (if b then interface :: l else l)

/-- The repetition-level lookups `tests_todo[interface][rate][nthreads][rep]`
of the run loop, `for rep in range(reps)`. -/
def lookupsReps (d : List (Nat × Bool)) : Nat → Nat → Except PyErr (List Bool)
  | 0, _ => .ok []
  | n + 1, rep =>
    match dictGet d rep with
    | .error e => .error e
    | .ok b =>
      match lookupsReps d n (rep + 1) with
      | .error e => .error e
      | .ok l => .ok (b :: l)

/-- The thread-level loop of the run loop's lookups: `for nthreads in threads`. -/
def lookupsThreads (todoRate : List (Nat × List (Nat × Bool))) (reps : Nat) :
    List Nat → Except PyErr (List Bool)
  | [] => .ok []
  | n :: rest =>
    match dictGet todoRate n with
    | .error e => .error e
    | .ok d =>
      match lookupsReps d reps 0 with
      | .error e => .error e
      | .ok l =>
        match lookupsThreads todoRate reps rest with
        | .error e => .error e
        | .ok l2 => .ok (l ++ l2)

/-- The rate-level loop of the run loop's lookups: `for rate in rates`. -/
def lookupsRates (todoIface : List (Nat × List (Nat × List (Nat × Bool))))
    (threads : List Nat) (reps : Nat) : List Nat → Except PyErr (List Bool)
  | [] => .ok []
  | rate :: rest =>
    match dictGet todoIface rate with
    | .error e => .error e
    | .ok todoRate =>
      match lookupsThreads todoRate reps threads with
      | .error e => .error e
      | .ok l =>
        match lookupsRates todoIface threads reps rest with
        | .error e => .error e
        | .ok l2 => .ok (l ++ l2)

/-- The sequence of todo flags the run loop of `test_load_latency`
(lines 983-989) reads for one interface, or the `KeyError` the first
missing key raises. -/
def run_loop_flags (todo : TodoDict) (interface : String) (rates threads : List Nat)
    (reps : Nat) : Except PyErr (List Bool) :=
  match dictGet todo interface with
  | .error e => .error e
  | .ok ti => lookupsRates ti threads reps rates

theorem dictGet_map_self {α β : Type} [DecidableEq α] (f : α → β) :
    ∀ (l : List α) (a : α), a ∈ l → dictGet (l.map (fun x => (x, f x))) a = .ok (f a) := by
  intro l
  induction l with
  | nil => intro a ha; simp at ha
  | cons x rest ih =>
    intro a ha
    by_cases hx : x = a
    · subst hx
      simp [dictGet]
    · have : a ∈ rest := by
        rcases List.mem_cons.mp ha with h | h
        · exact absurd h.symm hx
        · exact h
      simp [dictGet, hx]
      exact ih a this

/-- C9: the table maps, for the `macvtap` interface, every rate to the
single thread-count key 1 regardless of the configured thread list,
while for any other interface each rate maps to exactly the configured
thread counts; yet both the needed-interfaces computation and the run
loop index the table with the configured thread list for every
interface, so on a macvtap configuration whose thread list begins with a
count other than 1 both raise `KeyError`. -/
theorem claim_C9 (outdir : String) (interfaces : List String) (rates threads : List Nat)
    (reps : Nat) (fs : FS) :
    (∀ iface ∈ interfaces, ∀ rate ∈ rates,
      ∃ ti d, dictGet (testsTodo outdir interfaces rates threads reps fs) iface = .ok ti ∧
        dictGet ti rate = .ok d ∧
        d.map Prod.fst = (if iface = "macvtap" then [1] else threads)) ∧
    (∀ (rest : List String) (rates2 : List Nat) (t : Nat) (ts : List Nat) (r : Nat),
      t ≠ 1 →
      interfaces_needed outdir ("macvtap" :: rest) (r :: rates2) (t :: ts) reps fs =
        .error .keyError) ∧
    (∀ (rest : List String) (rates2 : List Nat) (t : Nat) (ts : List Nat) (r : Nat),
      t ≠ 1 →
      run_loop_flags (testsTodo outdir ("macvtap" :: rest) (r :: rates2) (t :: ts) reps fs)
        "macvtap" (r :: rates2) (t :: ts) reps = .error .keyError) := by
  refine ⟨?_, ?_, ?_⟩
  · intro iface hif rate hrate
    refine ⟨_, _, dictGet_map_self _ interfaces iface hif, dictGet_map_self _ rates rate hrate,
      ?_⟩
    rw [List.map_map]
    exact List.map_id _
  · intro rest rates2 t ts r ht
    have ht2 : ¬ ((1 : Nat) = t) := fun h => ht h.symm
    simp [interfaces_needed, interfaces_needed.ifNeededLoop, testsTodo, dictGet,
      neededIfaceRates, neededForRate, ht2]
  · intro rest rates2 t ts r ht
    have ht2 : ¬ ((1 : Nat) = t) := fun h => ht h.symm
    simp [run_loop_flags, testsTodo, dictGet, lookupsRates, lookupsThreads, ht2]

/-- Witness for `claim_C9` at a concrete input: interfaces
`[pnic, macvtap]`, rates `[10]`, threads `[2]`: the macvtap row of the
table has thread key 1 only, and both consumers raise `KeyError`. -/
theorem claim_C9_witness :
    (("macvtap" : String) ∈ ["pnic", "macvtap"] ∧ (10 : Nat) ∈ [10] ∧ (2 : Nat) ≠ 1) ∧
    (∃ ti d, dictGet (testsTodo "out" ["pnic", "macvtap"] [10] [2] 1 []) "macvtap" = .ok ti ∧
      dictGet ti 10 = .ok d ∧
      d.map Prod.fst = (if ("macvtap" : String) = "macvtap" then [1] else [2])) ∧
    interfaces_needed "out" ["macvtap"] [10] [2] 1 [] = .error PyErr.keyError ∧
    run_loop_flags (testsTodo "out" ["macvtap"] [10] [2] 1 []) "macvtap" [10] [2] 1 =
      .error PyErr.keyError :=
  ⟨⟨by decide, by decide, by decide⟩,
    (claim_C9 "out" ["pnic", "macvtap"] [10] [2] 1 []).1 "macvtap" (by decide) 10 (by decide),
    (claim_C9 "out" ["macvtap"] [10] [2] 1 []).2.1 [] [] 2 [] 10 (by decide),
    (claim_C9 "out" ["macvtap"] [10] [2] 1 []).2.2 [] [] 2 [] 10 (by decide)⟩

/-! ## `LoadLatencyTestGenerator.run` (`loadlatency.py` lines 184-396)

The sweep over the whole parameter space.  Python sets are modelled as
lists in iteration order.  Control flow is explicit: `Flow.cont`
continues, `Flow.ret` is the `return` executed when
`guest.wait_for_connection()` times out (lines 361-366), `Flow.err`
is an uncaught exception.  Lifecycle actions whose failure modes are not
at issue here (`kill_guest` wrapped in `try/except pass`,
`cleanup_network` with an existing test interface — see `claim_C2` —,
`detect_test_iface`, interface setup, reflector start/stop)
are recorded in the trace as single operations; the call to `run_guest`
is embedded by `runGuestCall`, which raises at the call site (see
there); the per-test remote behaviour comes from `GenEnv.testEnv` and
guest connectivity from `GenEnv.connOk`, indexed by how many connection
waits happened so far. -/

/-- The generator dataclass (`loadlatency.py` lines 184-199). -/
structure LLGen where
  machines : List Machine
  interfaces : List Interface
  qemus : List String
  vhosts : List Bool
  ioregionfds : List Bool
  reflectors : List Reflector
  rates : List Nat
  runtimes : List Nat
  repetitions : Nat
  accumulate : Bool
  outputdir : String

/-- Environment of the generator run. -/
structure GenEnv where
  testEnv : LoadLatencyTest → LLEnv
  connOk : Nat → Bool
  hostMac : String
  guestHostMac : String
  guestTestMac : String

/-- Control flow of the embedded generator. -/
inductive Flow
  | cont
  | ret
  | err (e : PyErr)
deriving DecidableEq, Repr

/-- Generator state: the local filesystem and the number of connection
waits performed. -/
structure GSt where
  fs : FS
  conn : Nat
deriving Repr

/-- Sequence two generator steps, short-circuiting on `ret`/`err`. -/
def seqG (r : GSt × List GOp × Flow) (f : GSt → GSt × List GOp × Flow) :
    GSt × List GOp × Flow :=
  match r with
  | (s, tr, Flow.cont) =>
    match f s with
    | (s2, tr2, fl) => (s2, tr ++ tr2, fl)
  | r => r

/-- Run a step for each element, short-circuiting on `ret`/`err`. -/
def foldG {α : Type} (f : α → GSt → GSt × List GOp × Flow) :
    List α → GSt → GSt × List GOp × Flow
  | [], s => (s, [], .cont)
  | x :: xs, s =>
    match f x s with
    | (s2, tr2, Flow.cont) =>
      match foldG f xs s2 with
      | (s3, tr3, fl) => (s3, tr2 ++ tr3, fl)
    | r => r

/-- A step that only performs remote lifecycle operations. -/
def opOnly (ops : List GOp) (s : GSt) : GSt × List GOp × Flow := (s, ops, .cont)

/-- One `test.run` (plus `test.accumulate` when requested) inside
`run_interface_tests` (lines 210-225); an exception escapes. -/
def runTestG (env : GenEnv) (t : LoadLatencyTest) (accumulate : Bool) (s : GSt) :
    GSt × List GOp × Flow :=
  match LoadLatencyTest.run t (env.testEnv t) s.fs with
  | (fs2, tr, some e) => ({ s with fs := fs2 }, tr, .err e)
  | (fs2, tr, none) =>
    if accumulate then
      match LoadLatencyTest.accumulate t fs2 with
      | (fs3, some e) => ({ s with fs := fs3 }, tr ++ [GOp.accOp t], .err e)
      | (fs3, none) => ({ s with fs := fs3 }, tr ++ [GOp.accOp t], .cont)
    else ({ s with fs := fs2 }, tr, .cont)

/-- `run_interface_tests` (lines 201-225): the rate × runtime product. -/
def run_interface_tests (g : LLGen) (env : GenEnv) (machine : Machine)
    (interface : Interface) (mac qemu : String) (vhost ioregionfd : Bool)
    (reflector : Reflector) (s : GSt) : GSt × List GOp × Flow :=
  foldG (fun rate s1 =>
    foldG (fun runtime s2 =>
      runTestG env
        ⟨machine, interface, mac, qemu, vhost, ioregionfd, reflector, rate, runtime,
          g.repetitions, g.outputdir⟩ g.accumulate s2) g.runtimes s1) g.rates s

/-- `setup_interface` (lines 227-235): issues commands only for the
bridge and macvtap variants. -/
def setupOps (i : Interface) : List GOp :=
  if i = Interface.pnic then [] else [GOp.setupIfaceOp i]

/-- `guest.wait_for_connection()` wrapped in `try/except TimeoutError`
with `return` in the handler (lines 360-366). -/
def waitConnG (env : GenEnv) (s : GSt) : GSt × List GOp × Flow :=
  if env.connOk s.conn then ({ s with conn := s.conn + 1 }, [GOp.waitConnOp], .cont)
  else ({ s with conn := s.conn + 1 }, [GOp.waitConnOp, GOp.connTimeoutOp], .ret)

/-- The reflector loop of the host branch (lines 312-334), with the
pnic/moongen compatibility skip. -/
def hostReflLoop (g : LLGen) (env : GenEnv) (interface : Interface) (s : GSt) :
    GSt × List GOp × Flow :=
  foldG (fun reflector s1 =>
    if interface ≠ Interface.pnic ∧ reflector = Reflector.moongen then (s1, [], .cont)
    else
      seqG (opOnly [GOp.startReflOp reflector] s1) (fun s2 =>
        seqG (run_interface_tests g env Machine.host interface
            (if interface = Interface.pnic then env.hostMac else env.guestHostMac)
            "" false false reflector s2)
          (fun s3 => opOnly [GOp.stopReflOp reflector] s3))) g.reflectors s

/-- The host-tests branch (lines 300-337). -/
def hostIfaceLoop (g : LLGen) (env : GenEnv) (s : GSt) : GSt × List GOp × Flow :=
  foldG (fun interface s1 =>
    seqG (opOnly (GOp.detectIfaceOp :: setupOps interface) s1) (fun s2 =>
      seqG (hostReflLoop g env interface s2) (fun s3 => opOnly [GOp.cleanupNetOp] s3)))
    g.interfaces s

/-- `qemu_name, qemu_path = qemu.split(':')` (line 347). -/
def qemuSplitName (q : String) : Except PyErr (String × String) :=
  match splitOnChar ':' q.data with
  | [a, b] => .ok (⟨a⟩, ⟨b⟩)
  | _ => .error .valueError

/-- The reflector loop of the guest branch (lines 371-387). -/
def guestReflLoop (g : LLGen) (env : GenEnv) (machine : Machine) (interface : Interface)
    (qname : String) (vhost ioregionfd : Bool) (s : GSt) : GSt × List GOp × Flow :=
  foldG (fun reflector s1 =>
    seqG (opOnly [GOp.startReflOp reflector] s1) (fun s2 =>
      seqG (run_interface_tests g env machine interface env.guestTestMac qname vhost
          ioregionfd reflector s2)
        (fun s3 => opOnly [GOp.stopReflOp reflector] s3))) g.reflectors s

/-- The call `self.run_guest(host, guest, machine, interface, qemu_path,
vhost, ioregionfd)` (lines 357-358).  `run_guest` (lines 254-265) takes
six parameters besides `self` — `host`, `machine`, `interface`, `qemu`,
`vhost`, `ioregionfd` — but the call passes seven positional arguments,
so Python raises `TypeError` at the call itself: no remote operation of
the guest launch is ever issued. -/
def runGuestCall (_machine : Machine) (_interface : Interface) (_qemu : String)
    (_vhost _ioregionfd : Bool) (s : GSt) : GSt × List GOp × Flow :=
  (s, [], .err PyErr.typeError)

/-- The body of the vhost × ioregionfd loop for one qemu build of the
guest branch (lines 348-392): skip non-microvm ioregionfd combinations,
otherwise call `run_guest` — which raises `TypeError`, see
`runGuestCall` — and then (unreachably, kept as written in the source)
wait for connectivity (`return` on timeout), detect the test interface,
run the reflector loop, kill the guest. -/
def guestCombo (g : LLGen) (env : GenEnv) (machine : Machine) (interface : Interface)
    (qname qpath : String) (vhost ioregionfd : Bool) (s : GSt) : GSt × List GOp × Flow :=
  if ioregionfd = true ∧ machine ≠ Machine.microvm then (s, [], .cont)
  else
    seqG (runGuestCall machine interface qpath vhost ioregionfd s) (fun s3 =>
      seqG (waitConnG env s3) (fun s4 =>
        seqG (opOnly [GOp.detectGuestIfaceOp] s4) (fun s5 =>
          seqG (guestReflLoop g env machine interface qname vhost ioregionfd s5)
            (fun s6 => opOnly [GOp.killGuestOp] s6))))

/-- The vhost × ioregionfd product for one qemu build of the guest branch
(lines 346-392). -/
def guestInner (g : LLGen) (env : GenEnv) (machine : Machine) (interface : Interface)
    (qemu : String) (s : GSt) : GSt × List GOp × Flow :=
  match qemuSplitName qemu with
  | .error e => (s, [], .err e)
  | .ok (qname, qpath) =>
    foldG (fun (vhost : Bool) s1 =>
      foldG (guestCombo g env machine interface qname qpath vhost) g.ioregionfds s1)
      g.vhosts s

/-- The guest-machines part (lines 339-395). -/
def guestMachineLoop (g : LLGen) (env : GenEnv) (s : GSt) : GSt × List GOp × Flow :=
  foldG (fun machine s1 =>
    foldG (fun interface s2 =>
      seqG (opOnly (setupOps interface) s2) (fun s3 =>
        seqG (foldG (guestInner g env machine interface) g.qemus s3)
          (fun s4 => opOnly [GOp.cleanupNetOp] s4)))
      (g.interfaces.filter (fun i => i ≠ Interface.pnic)) s1)
    (g.machines.filter (fun m => m ≠ Machine.host)) s

/-- `LoadLatencyTestGenerator.run` (lines 267-396): initial cleanup, the
host branch when HOST is among the machines, then the guest branches.
`Flow.ret` (a caught connectivity timeout) ends the run normally. -/
def LLGen.run (g : LLGen) (env : GenEnv) (fs : FS) : FS × List GOp × Option PyErr :=
  match seqG (opOnly [GOp.killGuestOp, GOp.cleanupNetOp] ⟨fs, 0⟩) (fun s1 =>
    seqG (if Machine.host ∈ g.machines then hostIfaceLoop g env s1 else (s1, [], .cont))
      (fun s2 => guestMachineLoop g env s2)) with
  | (s, tr, Flow.err e) => (s.fs, tr, some e)
  | (s, tr, _) => (s.fs, tr, none)

/-- Traces free of connectivity-wait markers: neither the wait nor the
timeout marker occurs. -/
def NoWait (tr : List GOp) : Prop :=
  GOp.waitConnOp ∉ tr ∧ GOp.connTimeoutOp ∉ tr

theorem noWait_append {tr1 tr2 : List GOp} (h1 : NoWait tr1) (h2 : NoWait tr2) :
    NoWait (tr1 ++ tr2) := by
  constructor
  · intro hc
    rcases List.mem_append.mp hc with h | h
    · exact h1.1 h
    · exact h2.1 h
  · intro hc
    rcases List.mem_append.mp hc with h | h
    · exact h1.2 h
    · exact h2.2 h

theorem noWait_opOnly (ops : List GOp) (h : NoWait ops) (s : GSt) :
    NoWait (opOnly ops s).2.1 := h

theorem noWait_seqG {r : GSt × List GOp × Flow} {f : GSt → GSt × List GOp × Flow}
    (hr : NoWait r.2.1) (hf : ∀ s, NoWait (f s).2.1) : NoWait (seqG r f).2.1 := by
  rcases r with ⟨s, tr, fl⟩
  cases fl with
  | cont =>
    rcases hq : f s with ⟨s2, tr2, fl2⟩
    have h2 := hf s
    rw [hq] at h2
    simp only [seqG]
    rw [hq]
    exact noWait_append hr h2
  | ret => exact hr
  | err e => exact hr

theorem noWait_foldG {α : Type} {f : α → GSt → GSt × List GOp × Flow}
    (hf : ∀ x s, NoWait (f x s).2.1) :
    ∀ (xs : List α) (s : GSt), NoWait (foldG f xs s).2.1 := by
  intro xs
  induction xs with
  | nil =>
    intro s
    exact ⟨by simp [foldG], by simp [foldG]⟩
  | cons x xs ih =>
    intro s
    rcases hq : f x s with ⟨s2, tr2, fl2⟩
    have h1 := hf x s
    rw [hq] at h1
    simp only [foldG]
    rw [hq]
    cases fl2 with
    | cont => exact noWait_append h1 (ih s2)
    | ret => exact h1
    | err e => exact h1

theorem seqG_opOnly (ops : List GOp) (s : GSt) (f : GSt → GSt × List GOp × Flow)
    {s2 : GSt} {tr2 : List GOp} {fl : Flow} (h : f s = (s2, tr2, fl)) :
    seqG (opOnly ops s) f = (s2, ops ++ tr2, fl) := by
  simp only [opOnly, seqG]
  rw [h]

theorem foldG_cons {α : Type} (f : α → GSt → GSt × List GOp × Flow) (x : α) (xs : List α)
    (s s2 : GSt) (tr2 : List GOp) (e : PyErr) (h : f x s = (s2, tr2, Flow.err e)) :
    foldG f (x :: xs) s = (s2, tr2, Flow.err e) := by
  simp only [foldG]
  rw [h]

theorem foldG_id {α : Type} {f : α → GSt → GSt × List GOp × Flow}
    (hf : ∀ x s, ∃ fl, f x s = (s, [], fl)) :
    ∀ (xs : List α) (s : GSt), ∃ fl, foldG f xs s = (s, [], fl) := by
  intro xs
  induction xs with
  | nil =>
    intro s
    exact ⟨.cont, rfl⟩
  | cons x xs ih =>
    intro s
    obtain ⟨fl, hx⟩ := hf x s
    cases fl with
    | cont =>
      obtain ⟨fl2, hxs⟩ := ih s
      refine ⟨fl2, ?_⟩
      simp only [foldG]
      rw [hx]
      show ((foldG f xs s).1, [] ++ (foldG f xs s).2.1, (foldG f xs s).2.2) = (s, [], fl2)
      rw [hxs]
      rfl
    | ret =>
      refine ⟨.ret, ?_⟩
      simp only [foldG]
      rw [hx]
    | err e =>
      refine ⟨.err e, ?_⟩
      simp only [foldG]
      rw [hx]

theorem runRep_ops (t : LoadLatencyTest) (env : LLEnv) (fs : FS) (rep : Nat) :
    ∀ op ∈ (runRep t env fs rep).2.1, ∃ r st, op = GOp.testOp t r st := by
  intro op h
  unfold runRep at h
  split_ifs at h
  · simp at h
  · simp at h
    exact ⟨rep, TStep.execRm, h⟩
  · simp at h
    rcases h with h | h
    · exact ⟨rep, TStep.execRm, h⟩
    · exact ⟨rep, TStep.runLoad, h⟩
  · simp at h
    rcases h with h | h | h
    · exact ⟨rep, TStep.execRm, h⟩
    · exact ⟨rep, TStep.runLoad, h⟩
    · exact ⟨rep, TStep.waitHist, h⟩
  · rcases ho : env.outContent rep with _ | oc
    · rw [ho] at h
      simp at h
      rcases h with h | h | h | h
      · exact ⟨rep, TStep.execRm, h⟩
      · exact ⟨rep, TStep.runLoad, h⟩
      · exact ⟨rep, TStep.waitHist, h⟩
      · exact ⟨rep, TStep.copyOut, h⟩
    · rw [ho] at h
      rcases hh : env.histContent rep with _ | hcv <;> rw [hh] at h <;> simp at h <;>
        rcases h with h | h | h | h | h
      · exact ⟨rep, TStep.execRm, h⟩
      · exact ⟨rep, TStep.runLoad, h⟩
      · exact ⟨rep, TStep.waitHist, h⟩
      · exact ⟨rep, TStep.copyOut, h⟩
      · exact ⟨rep, TStep.copyHist, h⟩
      · exact ⟨rep, TStep.execRm, h⟩
      · exact ⟨rep, TStep.runLoad, h⟩
      · exact ⟨rep, TStep.waitHist, h⟩
      · exact ⟨rep, TStep.copyOut, h⟩
      · exact ⟨rep, TStep.copyHist, h⟩

theorem runAux_ops (t : LoadLatencyTest) (env : LLEnv) :
    ∀ n rep fs op, op ∈ (runAux t env n rep fs).2.1 → ∃ r st, op = GOp.testOp t r st := by
  intro n
  induction n with
  | zero =>
    intro rep fs op h
    simp [runAux] at h
  | succ n ih =>
    intro rep fs op h
    rcases hrep : runRep t env fs rep with ⟨fs1, tr1, e1⟩
    have hops := runRep_ops t env fs rep
    rw [hrep] at hops
    cases e1 with
    | some e =>
      simp only [runAux] at h
      rw [hrep] at h
      exact hops op h
    | none =>
      simp only [runAux] at h
      rw [hrep] at h
      have h2 : op ∈ tr1 ++ (runAux t env n (rep + 1) fs1).2.1 := h
      rcases List.mem_append.mp h2 with h3 | h3
      · exact hops op h3
      · exact ih (rep + 1) fs1 op h3

theorem noWait_runTestG (env : GenEnv) (t : LoadLatencyTest) (acc : Bool) (s : GSt) :
    NoWait (runTestG env t acc s).2.1 := by
  have hops : ∀ op ∈ (LoadLatencyTest.run t (env.testEnv t) s.fs).2.1,
      ∃ r st, op = GOp.testOp t r st :=
    runAux_ops t (env.testEnv t) t.repetitions 0 s.fs
  have hnw : ∀ tr : List GOp, (∀ op ∈ tr, ∃ r st, op = GOp.testOp t r st) → NoWait tr := by
    intro tr h
    constructor
    · intro hc
      obtain ⟨r, st, habs⟩ := h _ hc
      cases habs
    · intro hc
      obtain ⟨r, st, habs⟩ := h _ hc
      cases habs
  unfold runTestG
  split
  · rename_i fs2 tr e hr
    rw [hr] at hops
    exact hnw tr hops
  · rename_i fs2 tr hr
    rw [hr] at hops
    have hnt : NoWait tr := hnw tr hops
    have hnt2 : NoWait (tr ++ [GOp.accOp t]) := noWait_append hnt ⟨by simp, by simp⟩
    by_cases hacc : acc = true
    · rw [if_pos hacc]
      split
      · exact hnt2
      · exact hnt2
    · rw [if_neg hacc]
      exact hnt

theorem noWait_runIT (g : LLGen) (env : GenEnv) (m : Machine) (i : Interface)
    (mac q : String) (v io : Bool) (r : Reflector) (s : GSt) :
    NoWait (run_interface_tests g env m i mac q v io r s).2.1 :=
  noWait_foldG (fun _rate s1 =>
    noWait_foldG (fun _rt s2 => noWait_runTestG env _ _ s2) g.runtimes s1) g.rates s

theorem noWait_setupOps (i : Interface) : NoWait (setupOps i) := by
  constructor
  · intro hmem
    unfold setupOps at hmem
    split_ifs at hmem <;> simp at hmem
  · intro hmem
    unfold setupOps at hmem
    split_ifs at hmem <;> simp at hmem

theorem noWait_detectSetup (i : Interface) : NoWait (GOp.detectIfaceOp :: setupOps i) := by
  constructor
  · intro hmem
    rcases List.mem_cons.mp hmem with h | h
    · cases h
    · exact (noWait_setupOps i).1 h
  · intro hmem
    rcases List.mem_cons.mp hmem with h | h
    · cases h
    · exact (noWait_setupOps i).2 h

theorem noWait_hostReflLoop (g : LLGen) (env : GenEnv) (i : Interface) (s : GSt) :
    NoWait (hostReflLoop g env i s).2.1 := by
  refine noWait_foldG (fun r s1 => ?_) g.reflectors s
  by_cases hc : i ≠ Interface.pnic ∧ r = Reflector.moongen
  · simp only [hostReflLoop, if_pos hc]
    exact ⟨by simp, by simp⟩
  · simp only [if_neg hc]
    exact noWait_seqG (noWait_opOnly _ ⟨by simp, by simp⟩ _) (fun s2 =>
      noWait_seqG (noWait_runIT g env _ _ _ _ _ _ _ s2) (fun s3 =>
        noWait_opOnly _ ⟨by simp, by simp⟩ s3))

theorem noWait_hostIfaceLoop (g : LLGen) (env : GenEnv) (s : GSt) :
    NoWait (hostIfaceLoop g env s).2.1 := by
  refine noWait_foldG (fun i s1 => ?_) g.interfaces s
  exact noWait_seqG (noWait_opOnly _ (noWait_detectSetup i) _) (fun s2 =>
    noWait_seqG (noWait_hostReflLoop g env i s2) (fun s3 =>
      noWait_opOnly _ ⟨by simp, by simp⟩ s3))

theorem guestCombo_result (g : LLGen) (env : GenEnv) (m : Machine) (i : Interface)
    (qn qp : String) (v io : Bool) (s : GSt) :
    guestCombo g env m i qn qp v io s =
      if io = true ∧ m ≠ Machine.microvm then (s, [], Flow.cont)
      else (s, [], Flow.err PyErr.typeError) := by
  unfold guestCombo
  by_cases hc : io = true ∧ m ≠ Machine.microvm
  · rw [if_pos hc, if_pos hc]
  · rw [if_neg hc, if_neg hc]
    rfl

theorem guestCombo_id (g : LLGen) (env : GenEnv) (m : Machine) (i : Interface)
    (qn qp : String) (v io : Bool) (s : GSt) :
    ∃ fl, guestCombo g env m i qn qp v io s = (s, [], fl) := by
  rw [guestCombo_result]
  by_cases hc : io = true ∧ m ≠ Machine.microvm
  · rw [if_pos hc]
    exact ⟨.cont, rfl⟩
  · rw [if_neg hc]
    exact ⟨.err PyErr.typeError, rfl⟩

/-- Every pass through the guest (vhost × ioregionfd) product leaves the
state unchanged and issues no remote operation: each combination either
is skipped or dies in the `TypeError` of the `run_guest` call. -/
theorem guestInner_trace (g : LLGen) (env : GenEnv) (m : Machine) (i : Interface)
    (q : String) (s : GSt) : ∃ fl, guestInner g env m i q s = (s, [], fl) := by
  unfold guestInner
  rcases qemuSplitName q with e | ⟨qn, qp⟩
  · exact ⟨.err e, rfl⟩
  · refine foldG_id (fun v s1 => ?_) g.vhosts s
    exact foldG_id (fun io s2 => guestCombo_id g env m i qn qp v io s2) g.ioregionfds s1

theorem noWait_guestInner (g : LLGen) (env : GenEnv) (m : Machine) (i : Interface)
    (q : String) (s : GSt) : NoWait (guestInner g env m i q s).2.1 := by
  obtain ⟨fl, h⟩ := guestInner_trace g env m i q s
  rw [h]
  exact ⟨by simp, by simp⟩

theorem noWait_guestMachineLoop (g : LLGen) (env : GenEnv) (s : GSt) :
    NoWait (guestMachineLoop g env s).2.1 := by
  refine noWait_foldG (fun m s1 => ?_) _ s
  refine noWait_foldG (fun i s2 => ?_) _ s1
  exact noWait_seqG (noWait_opOnly _ (noWait_setupOps i) _) (fun s3 =>
    noWait_seqG (noWait_foldG (fun q s4 => noWait_guestInner g env m i q s4) g.qemus s3)
      (fun s4 => noWait_opOnly _ ⟨by simp, by simp⟩ s4))

/-- No run of the generator — whatever the configuration, environment and
starting filesystem — ever performs a guest-connectivity wait: the
`TypeError` of the `run_guest` call precedes it on every path. -/
theorem noWait_run (g : LLGen) (env : GenEnv) (fs : FS) :
    NoWait (LLGen.run g env fs).2.1 := by
  have hR : NoWait (seqG (opOnly [GOp.killGuestOp, GOp.cleanupNetOp] ⟨fs, 0⟩) (fun s1 =>
      seqG (if Machine.host ∈ g.machines then hostIfaceLoop g env s1 else (s1, [], .cont))
        (fun s2 => guestMachineLoop g env s2))).2.1 := by
    refine noWait_seqG (noWait_opOnly _ ⟨by simp, by simp⟩ _) (fun s1 => ?_)
    refine noWait_seqG ?_ (fun s2 => noWait_guestMachineLoop g env s2)
    by_cases hm : Machine.host ∈ g.machines
    · rw [if_pos hm]
      exact noWait_hostIfaceLoop g env s1
    · rw [if_neg hm]
      exact ⟨by simp, by simp⟩
  rcases hq : seqG (opOnly [GOp.killGuestOp, GOp.cleanupNetOp] ⟨fs, 0⟩) (fun s1 =>
      seqG (if Machine.host ∈ g.machines then hostIfaceLoop g env s1 else (s1, [], .cont))
        (fun s2 => guestMachineLoop g env s2)) with ⟨s, tr, fl⟩
  rw [hq] at hR
  have hrun : (LLGen.run g env fs).2.1 = tr := by
    unfold LLGen.run
    rw [hq]
    cases fl <;> rfl
  rw [hrun]
  exact hR

/-- `guestInner` on a nonempty vhost × ioregionfd product whose first
combination is not skipped: the `TypeError` of the `run_guest` call
aborts it at once, with no operation issued and the state unchanged. -/
theorem guestInner_abort (g : LLGen) (env : GenEnv) (m : Machine) (i : Interface)
    (q qn qp : String) (v : Bool) (vs : List Bool) (io : Bool) (ios : List Bool)
    (hqs : qemuSplitName q = Except.ok (qn, qp))
    (hv : g.vhosts = v :: vs) (hio : g.ioregionfds = io :: ios)
    (hskip : ¬(io = true ∧ m ≠ Machine.microvm)) (s : GSt) :
    guestInner g env m i q s = (s, [], Flow.err PyErr.typeError) := by
  unfold guestInner
  rw [hqs]
  show foldG (fun (vhost : Bool) s1 =>
      foldG (guestCombo g env m i qn qp vhost) g.ioregionfds s1) g.vhosts s =
    (s, [], Flow.err PyErr.typeError)
  rw [hv, hio]
  refine foldG_cons _ v vs s s [] PyErr.typeError ?_
  refine foldG_cons _ io ios s s [] PyErr.typeError ?_
  rw [guestCombo_result, if_neg hskip]

/-- The guest-machines part of the sweep, on a nonempty parameter space
whose first combination is not skipped, aborts with the `TypeError` of
the `run_guest` call right after setting up the first interface kind. -/
theorem guestMachineLoop_abort (g : LLGen) (env : GenEnv) (m : Machine) (ms : List Machine)
    (i : Interface) (is2 : List Interface) (q qn qp : String) (qs : List String)
    (v : Bool) (vs : List Bool) (io : Bool) (ios : List Bool)
    (hm : g.machines.filter (fun m2 => m2 ≠ Machine.host) = m :: ms)
    (hi : g.interfaces.filter (fun i2 => i2 ≠ Interface.pnic) = i :: is2)
    (hq : g.qemus = q :: qs)
    (hqs : qemuSplitName q = Except.ok (qn, qp))
    (hv : g.vhosts = v :: vs) (hio : g.ioregionfds = io :: ios)
    (hskip : ¬(io = true ∧ m ≠ Machine.microvm)) (s : GSt) :
    guestMachineLoop g env s = (s, setupOps i, Flow.err PyErr.typeError) := by
  have hgi : guestInner g env m i q s = (s, [], Flow.err PyErr.typeError) :=
    guestInner_abort g env m i q qn qp v vs io ios hqs hv hio hskip s
  unfold guestMachineLoop
  rw [hm, hi, hq]
  refine foldG_cons _ m ms s s (setupOps i) PyErr.typeError ?_
  refine foldG_cons _ i is2 s s (setupOps i) PyErr.typeError ?_
  have hinner : seqG (foldG (guestInner g env m i) (q :: qs) s)
      (fun s4 => opOnly [GOp.cleanupNetOp] s4) = (s, [], Flow.err PyErr.typeError) := by
    rw [foldG_cons (guestInner g env m i) q qs s s [] PyErr.typeError hgi]
    rfl
  have hstep := seqG_opOnly (setupOps i) s
    (fun s3 => seqG (foldG (guestInner g env m i) (q :: qs) s3)
      (fun s4 => opOnly [GOp.cleanupNetOp] s4)) hinner
  rw [hstep, List.append_nil]

/-- C6, amended.  The sweep never reaches the guest-connectivity wait:
`run_guest` is called with seven positional arguments (lines 357-358)
but takes six besides `self` (lines 254-256), so Python raises an
uncaught `TypeError` at the first guest combination.  No trace of any
run contains a connectivity wait or its timeout marker, so the claimed
timeout handling never occurs; and a run with no host tests and a
nonempty guest parameter space whose first combination is not skipped
aborts with the `TypeError` right after the initial cleanup and the
setup of the first interface kind, its local filesystem untouched — the
entire parameter space, including every further interface kind, is
abandoned. -/
theorem claim_C6 (g : LLGen) (env : GenEnv) (fs : FS) (m : Machine) (ms : List Machine)
    (i : Interface) (is2 : List Interface) (q qn qp : String) (qs : List String)
    (v : Bool) (vs : List Bool) (io : Bool) (ios : List Bool)
    (hhost : Machine.host ∉ g.machines)
    (hm : g.machines.filter (fun m2 => m2 ≠ Machine.host) = m :: ms)
    (hi : g.interfaces.filter (fun i2 => i2 ≠ Interface.pnic) = i :: is2)
    (hq : g.qemus = q :: qs)
    (hqs : qemuSplitName q = Except.ok (qn, qp))
    (hv : g.vhosts = v :: vs) (hio : g.ioregionfds = io :: ios)
    (hskip : ¬(io = true ∧ m ≠ Machine.microvm)) :
    (∀ (g2 : LLGen) (env2 : GenEnv) (fs2 : FS),
        GOp.waitConnOp ∉ (LLGen.run g2 env2 fs2).2.1 ∧
        GOp.connTimeoutOp ∉ (LLGen.run g2 env2 fs2).2.1) ∧
    LLGen.run g env fs =
      (fs, GOp.killGuestOp :: GOp.cleanupNetOp :: setupOps i, some PyErr.typeError) := by
  refine ⟨fun g2 env2 fs2 => noWait_run g2 env2 fs2, ?_⟩
  have hgm : guestMachineLoop g env ⟨fs, 0⟩ = (⟨fs, 0⟩, setupOps i, Flow.err PyErr.typeError) :=
    guestMachineLoop_abort g env m ms i is2 q qn qp qs v vs io ios hm hi hq hqs hv hio hskip
      ⟨fs, 0⟩
  have h1 : seqG ((⟨fs, 0⟩ : GSt), [], Flow.cont) (fun s2 => guestMachineLoop g env s2) =
      ((⟨fs, 0⟩ : GSt), setupOps i, Flow.err PyErr.typeError) := by
    simp only [seqG]
    rw [hgm]
    rfl
  have h2 : seqG (if Machine.host ∈ g.machines then hostIfaceLoop g env ⟨fs, 0⟩
        else ((⟨fs, 0⟩ : GSt), [], Flow.cont)) (fun s2 => guestMachineLoop g env s2) =
      ((⟨fs, 0⟩ : GSt), setupOps i, Flow.err PyErr.typeError) := by
    rw [if_neg hhost]
    exact h1
  have h3 : seqG (opOnly [GOp.killGuestOp, GOp.cleanupNetOp] ⟨fs, 0⟩) (fun s1 =>
      seqG (if Machine.host ∈ g.machines then hostIfaceLoop g env s1 else (s1, [], .cont))
        (fun s2 => guestMachineLoop g env s2)) =
      ((⟨fs, 0⟩ : GSt), GOp.killGuestOp :: GOp.cleanupNetOp :: setupOps i,
        Flow.err PyErr.typeError) :=
    seqG_opOnly _ _ _ h2
  unfold LLGen.run
  rw [h3]

/-- A two-interface, one-machine sweep configuration. -/
def c6gen : LLGen :=
  ⟨[Machine.pcvm], [Interface.bridge, Interface.macvtap], ["q:/qemu-build"], [false], [false],
    [Reflector.xdp], [1], [1], 1, false, "out"⟩

/-- Environment in which the guest would answer every connectivity probe
and every other remote operation succeeds. -/
def c6env : GenEnv :=
  ⟨fun _ => envAllOk, fun _ => true, "64:9d:99:b1:0b:59", "52:54:00:fa:00:60",
    "52:54:00:fa:00:60"⟩

/-- C6, counterexample.  The claim says a connectivity timeout abandons
only the current interface-kind group and the sweep continues with the
remaining parameter space.  With `c6gen` (interface kinds bridge and
macvtap, one guest machine) the run never even reaches a connectivity
wait: the mis-arified `run_guest` call raises `TypeError` at the first
combination, the run aborts right after the bridge setup with the error
escaping, the macvtap group is never set up and no test is ever
launched, and the filesystem is untouched. -/
theorem claim_C6_counterexample :
    LLGen.run c6gen c6env [] =
      ([], [GOp.killGuestOp, GOp.cleanupNetOp, GOp.setupIfaceOp Interface.bridge],
        some PyErr.typeError) ∧
    GOp.waitConnOp ∉ (LLGen.run c6gen c6env []).2.1 ∧
    GOp.connTimeoutOp ∉ (LLGen.run c6gen c6env []).2.1 ∧
    GOp.setupIfaceOp Interface.macvtap ∉ (LLGen.run c6gen c6env []).2.1 := by
  refine ⟨by decide, by decide, by decide, by decide⟩

/-- Witness for `claim_C6` at a concrete input: the counterexample sweep
has no connectivity-wait marker anywhere in its trace and aborts with
the `TypeError` right after setting up the first interface kind. -/
theorem claim_C6_witness :
    (GOp.waitConnOp ∉ (LLGen.run c6gen c6env []).2.1 ∧
      GOp.connTimeoutOp ∉ (LLGen.run c6gen c6env []).2.1) ∧
    LLGen.run c6gen c6env [] =
      ([], [GOp.killGuestOp, GOp.cleanupNetOp, GOp.setupIfaceOp Interface.bridge],
        some PyErr.typeError) :=
  have h := claim_C6 c6gen c6env [] Machine.pcvm [] Interface.bridge [Interface.macvtap]
    "q:/qemu-build" "q" "/qemu-build" [] false [] false []
    (by decide) (by decide) (by decide) (by decide) (by rfl) (by decide) (by decide)
    (by decide)
  ⟨h.1 c6gen c6env [], h.2⟩

end Autotest
